import Mathlib

/-!
# ElMaven: EIC loading, peak-group deduplication and project loading

A shallow embedding of

* `src/libmaven/PeakDetector.h`: `struct EicLoader` (constructor and `operator()`), and
  the declaration of `PeakDetector::addPeakGroup`;
* `src/mzroll/projectdockwidget.cpp`: `ProjectDockWidget::loadProject`, `saveProject`
  and `unloadSample`.

Conventions of the embedding.

* C++ `float`/`double` values are rationals (`ℚ`); the code only compares them with `0`
  or with one another and passes them on, it does no arithmetic on them.
* C++ `int` values are `Int`; the code does no arithmetic on them.
* A pointer that may be `NULL` is an `Option`.
* Every call the code makes on a collaborator object is recorded, in program order, in a
  list of `Call`s returned next to the result, so that "which lookup was used", "how
  often" and "in which order" are statements about that list.
-/

namespace PeakDetector

/-! ## Types declared in `mzSample.h` (used by `PeakDetector.h`, not under `src/`) -/

/-- Modelled from the spec: class `Peak` is declared in `mzSample.h`, which is not under
`src/`.  A detected peak (spec 3) belongs to one sample and has an index range of that
sample's chromatogram with an apex index, and the retention-time range the index range
covers. -/
structure Peak where
  sample : Nat
  pos : Nat
  minpos : Nat
  maxpos : Nat
  rtmin : ℚ
  rtmax : ℚ
deriving DecidableEq

/-- Modelled from the spec: class `EIC` is declared in `mzSample.h`, which is not under
`src/`.  It is the chromatogram of one (sample, slice) pair (spec 3): `rt` and `intensity`
are the curve; the three parameter fields are the ones `EicLoader::operator()` sets
through the setters; `peaks` is what peak picking leaves behind. -/
structure EIC where
  rt : List ℚ
  intensity : List ℚ
  baselineSmoothingWindow : Int
  baselineDropTopX : Int
  smootherType : Int
  peaks : List Peak
deriving DecidableEq

/-- Modelled from the spec: `EIC::setBaselineSmoothingWindow` (class `EIC` is declared in
`mzSample.h`, which is not under `src/`); it attaches the baseline smoothing window. -/
def EIC.setBaselineSmoothingWindow (e : EIC) (x : Int) : EIC :=
  { e with baselineSmoothingWindow := x }

/-- Modelled from the spec: `EIC::setBaselineDropTopX` (class `EIC` is declared in
`mzSample.h`, which is not under `src/`); it attaches the drop-top-X percentile. -/
def EIC.setBaselineDropTopX (e : EIC) (x : Int) : EIC :=
  { e with baselineDropTopX := x }

/-- Modelled from the spec: `EIC::setSmootherType` (class `EIC` is declared in
`mzSample.h`, which is not under `src/`); it attaches the smoother variant, given as the
integer value of the `EIC::SmootherType` enumerator. -/
def EIC.setSmootherType (e : EIC) (x : Int) : EIC :=
  { e with smootherType := x }

/-- The peak picker behind `EIC::getPeakPositions` (spec 4.2), whose code is not under
`src/`: from a chromatogram with its attached parameters and a smoothing window it
produces zero or more peaks.  It is a parameter of the embedding. -/
abbrev PeakPicker := EIC → Int → List Peak

/-- Modelled from the spec: `EIC::getPeakPositions(smoothWindow)` (class `EIC` is declared
in `mzSample.h`, which is not under `src/`); peak picking (spec 4.2) stores the peaks it
finds on the chromatogram. -/
def EIC.getPeakPositions (pick : PeakPicker) (e : EIC) (smoothWindow : Int) : EIC :=
  { e with peaks := pick e smoothWindow }

/-- Class `Compound`, restricted to the fields `EicLoader::operator()` reads. -/
structure Compound where
  precursorMz : ℚ
  productMz : ℚ
  collisionEnergy : ℚ
deriving DecidableEq

/-- Class `mzSlice`, restricted to the fields `EicLoader::operator()` reads.  `compound`
is a pointer that may be `NULL`. -/
structure mzSlice where
  mzmin : ℚ
  mzmax : ℚ
  rtmin : ℚ
  rtmax : ℚ
  srmId : String
  compound : Option Compound
deriving DecidableEq

/-- Class `mzSample` as `EicLoader::operator()` sees it: the three overloads of
`mzSample::getEIC`, each returning a chromatogram or `NULL`. -/
structure mzSample where
  /-- Overload `getEIC(string srmId)`. -/
  getEIC_srm : String → Option EIC
  /-- Overload `getEIC(float precursorMz, float collisionEnergy, float productMz,
  float amuQ1, float amuQ2)`. -/
  getEIC_transition : ℚ → ℚ → ℚ → ℚ → ℚ → Option EIC
  /-- Overload `getEIC(float mzmin, float mzmax, float rtmin, float rtmax, int mslevel)`. -/
  getEIC_range : ℚ → ℚ → ℚ → ℚ → Int → Option EIC

/-! ## `struct EicLoader` -/

/-- Enumeration `EicLoader::PeakDetectionFlag`. -/
inductive PeakDetectionFlag where
  | NoPeakDetection
  | PeakDetection
deriving DecidableEq, Repr

/-- The data members of `struct EicLoader`. -/
structure EicLoader where
  slice : mzSlice
  pdetect : PeakDetectionFlag
  eic_smoothingWindow : Int
  eic_smoothingAlgorithm : Int
  eic_amuQ1 : ℚ
  eic_amuQ2 : ℚ
  eic_baselne_smoothingWindow : Int
  eic_baselne_dropTopX : Int

/-- Constructor `EicLoader::EicLoader(islice, iflag, smoothingWindow, smoothingAlgorithm,
amuQ1, amuQ2, baselineSmoothingWindow, baselineDropTopX)`. -/
def EicLoader.new (islice : mzSlice) (iflag : PeakDetectionFlag) (smoothingWindow : Int)
    (smoothingAlgorithm : Int) (amuQ1 : ℚ) (amuQ2 : ℚ) (baselineSmoothingWindow : Int)
    (baselineDropTopX : Int) : EicLoader :=
  { slice := islice
    pdetect := iflag
    eic_smoothingWindow := smoothingWindow
    eic_smoothingAlgorithm := smoothingAlgorithm
    eic_amuQ1 := amuQ1
    eic_amuQ2 := amuQ2
    eic_baselne_dropTopX := baselineDropTopX
    eic_baselne_smoothingWindow := baselineSmoothingWindow }

/-- The constructor called with the slice only, every other argument taking its default:
`iflag = NoPeakDetection`, `smoothingWindow = 5`, `smoothingAlgorithm = 0`,
`amuQ1 = 0.1`, `amuQ2 = 0.5`, `baselineSmoothingWindow = 5`, `baselineDropTopX = 40`. -/
def EicLoader.newDefault (islice : mzSlice) : EicLoader :=
  EicLoader.new islice PeakDetectionFlag.NoPeakDetection 5 0 (1 / 10) (1 / 2) 5 40

/-- A call made by `EicLoader::operator()` on the sample or on the chromatogram. -/
inductive Call where
  | getEIC_srm (srmId : String)
  | getEIC_transition (precursorMz collisionEnergy productMz amuQ1 amuQ2 : ℚ)
  | getEIC_range (mzmin mzmax rtmin rtmax : ℚ) (mslevel : Int)
  | setBaselineSmoothingWindow (x : Int)
  | setBaselineDropTopX (x : Int)
  | setSmootherType (x : Int)
  | getPeakPositions (smoothWindow : Int)
deriving DecidableEq

/-- Whether a call is one of the three `mzSample::getEIC` lookups. -/
def Call.isLookup : Call → Bool
  | Call.getEIC_srm _ => true
  | Call.getEIC_transition _ _ _ _ _ => true
  | Call.getEIC_range _ _ _ _ _ => true
  | _ => false

/-- Whether a call is one of the three parameter setters of `EIC`. -/
def Call.isSetter : Call → Bool
  | Call.setBaselineSmoothingWindow _ => true
  | Call.setBaselineDropTopX _ => true
  | Call.setSmootherType _ => true
  | _ => false

/-- Whether a call is `EIC::getPeakPositions`. -/
def Call.isPeakPicking : Call → Bool
  | Call.getPeakPositions _ => true
  | _ => false

/-- The three branches of the selection chain of `EicLoader::operator()`. -/
inductive SelectionCase where
  | srm
  | transition
  | range
deriving DecidableEq

/-- The branch of the selection chain a lookup call belongs to; `none` for a call that is
not a lookup. -/
def Call.selectionCase : Call → Option SelectionCase
  | Call.getEIC_srm _ => some SelectionCase.srm
  | Call.getEIC_transition _ _ _ _ _ => some SelectionCase.transition
  | Call.getEIC_range _ _ _ _ _ => some SelectionCase.range
  | _ => none

/-- What one run of `EicLoader::operator()` yields: the returned pointer and the calls made,
in program order. -/
structure Outcome where
  eic : Option EIC
  calls : List Call

/-- First statement group of `EicLoader::operator()` (the `if / else if / else` chain):
the chromatogram obtained from the sample, with the lookup that was called. -/
def EicLoader.fetch (L : EicLoader) (sample : mzSample) : Option EIC × Call :=
  let c := L.slice.compound
  if L.slice.srmId ≠ "" then
    (sample.getEIC_srm L.slice.srmId, Call.getEIC_srm L.slice.srmId)
  else
    match c with
    | some c =>
      if 0 < c.precursorMz ∧ 0 < c.productMz then
        (sample.getEIC_transition c.precursorMz c.collisionEnergy c.productMz
            L.eic_amuQ1 L.eic_amuQ2,
          Call.getEIC_transition c.precursorMz c.collisionEnergy c.productMz
            L.eic_amuQ1 L.eic_amuQ2)
      else
        (sample.getEIC_range L.slice.mzmin L.slice.mzmax L.slice.rtmin L.slice.rtmax 1,
          Call.getEIC_range L.slice.mzmin L.slice.mzmax L.slice.rtmin L.slice.rtmax 1)
    | none =>
      (sample.getEIC_range L.slice.mzmin L.slice.mzmax L.slice.rtmin L.slice.rtmax 1,
        Call.getEIC_range L.slice.mzmin L.slice.mzmax L.slice.rtmin L.slice.rtmax 1)

/-- Function `EicLoader::operator()(mzSample* sample)`. -/
def EicLoader.run (pick : PeakPicker) (L : EicLoader) (sample : mzSample) : Outcome :=
  -- if (!slice->srmId.empty()) ... else if (c && ...) ... else ...
  let e0 := (L.fetch sample).1
  let t0 := [(L.fetch sample).2]
  -- if (e) { three setters }
  let (e1, t1) :=
    match e0 with
    | some e =>
      (some (((e.setBaselineSmoothingWindow L.eic_baselne_smoothingWindow).setBaselineDropTopX
            L.eic_baselne_dropTopX).setSmootherType L.eic_smoothingAlgorithm),
        [Call.setBaselineSmoothingWindow L.eic_baselne_smoothingWindow,
          Call.setBaselineDropTopX L.eic_baselne_dropTopX,
          Call.setSmootherType L.eic_smoothingAlgorithm])
    | none => (none, [])
  -- if (pdetect == PeakDetection && e) e->getPeakPositions(eic_smoothingWindow);
  let (e2, t2) :=
    if L.pdetect = PeakDetectionFlag.PeakDetection then
      match e1 with
      | some e =>
        (some (e.getPeakPositions pick L.eic_smoothingWindow),
          [Call.getPeakPositions L.eic_smoothingWindow])
      | none => (none, [])
    else (e1, [])
  { eic := e2, calls := t0 ++ t1 ++ t2 }

/-! ## `PeakDetector::addPeakGroup`

`PeakDetector.h` only declares this member function; its body is in a file that is not under
`src/`.  The definitions of this section follow the specification (3 and 4.4) and the
documentation comment of the declaration. -/

/-- Modelled from the spec: a PeakGroup (spec 3) holds at most one peak per sample and an
aggregate quality score; the class itself is declared in `mzSample.h`, not under `src/`. -/
structure PeakGroup where
  peaks : List Peak
  quality : ℚ
deriving DecidableEq

/-- Modelled from the spec: the samples a group has a peak for. -/
def PeakGroup.samples (g : PeakGroup) : List Nat :=
  g.peaks.map (fun p => p.sample)

/-- Modelled from the spec: the retention-time span of a group restricted to the samples in
`S`, the envelope of the time ranges of its member peaks of those samples (spec 3); there
is no span when the group has no peak of a sample in `S`. -/
def PeakGroup.span (g : PeakGroup) (S : List Nat) : Option (ℚ × ℚ) :=
  match g.peaks.filter (fun p => decide (p.sample ∈ S)) with
  | [] => none
  | p :: ps =>
    some (ps.foldl (fun lo q => min lo q.rtmin) p.rtmin,
      ps.foldl (fun hi q => max hi q.rtmax) p.rtmax)

/-- Modelled from the spec: the configuration and the accepted group set that
`PeakDetector::addPeakGroup` works on (class `MavenParameters` is declared in
`mavenparameters.h`, not under `src/`).  The overlap metric between two retention-time
spans is left open by the spec (9, open question) and is a field here, as is the
threshold. -/
structure MavenParameters where
  overlapFraction : ℚ × ℚ → ℚ × ℚ → ℚ
  overlapThreshold : ℚ
  allgroups : List PeakGroup

/-- Modelled from the spec: the duplicate test of `PeakDetector::addPeakGroup` (4.4): the
overlap fraction between the candidate's span and an accepted group's span, both
restricted to the samples present in both, meets or exceeds the configured threshold. -/
def isDuplicate (mp : MavenParameters) (grp1 grp2 : PeakGroup) : Bool :=
  let common := grp1.samples.filter (fun x => decide (x ∈ grp2.samples))
  match grp1.span common, grp2.span common with
  | some s1, some s2 => decide (mp.overlapThreshold ≤ mp.overlapFraction s1 s2)
  | _, _ => false

/-- Modelled from the spec: merging a duplicate candidate into the existing group (4.4),
"filling in peaks for samples the existing group lacked". -/
def PeakGroup.mergeFrom (existing grp1 : PeakGroup) : PeakGroup :=
  { existing with
    peaks := existing.peaks ++ grp1.peaks.filter (fun p => decide (p.sample ∉ existing.samples)) }

/-- Modelled from the spec: what `PeakDetector::addPeakGroup` does with a duplicate
candidate, walking the accepted groups in order up to the first one the candidate
duplicates (4.4): the candidate is merged into that group when the candidate has the
higher aggregate quality, and discarded otherwise.  The result is `none` when the
candidate duplicates no accepted group. -/
def absorbDuplicate (mp : MavenParameters) (grp1 : PeakGroup) :
    List PeakGroup → Option (List PeakGroup)
  | [] => none
  | grp2 :: rest =>
    if isDuplicate mp grp1 grp2 then
      if grp2.quality < grp1.quality then some (grp2.mergeFrom grp1 :: rest)
      else some (grp2 :: rest)
    else
      (absorbDuplicate mp grp1 rest).map (fun r => grp2 :: r)

/-- Modelled from the spec: `bool PeakDetector::addPeakGroup(PeakGroup& grp1)`, whose body
is not under `src/` (only its declaration is, `PeakDetector.h` lines 111 to 117).  Policy
of spec 4.4: a candidate that duplicates an accepted group is merged or discarded,
otherwise it is accepted as a new group; the result is, in the words of the declaration,
"True if group is added to all groups, else False". -/
def addPeakGroup (mp : MavenParameters) (grp1 : PeakGroup) : Bool × MavenParameters :=
  match absorbDuplicate mp grp1 mp.allgroups with
  | some groups => (false, { mp with allgroups := groups })
  | none => (true, { mp with allgroups := mp.allgroups ++ [grp1] })

end PeakDetector

namespace ProjectDock

/-! ## Collaborators of `ProjectDockWidget::loadProject` -/

/-- Class `mzSample`, restricted to the members `projectdockwidget.cpp` reads or writes;
`color0` to `color3` are `color[0]` to `color[3]`, `setName` and `sampleOrder` are the
members behind `setSetName`/`getSetName` and `setSampleOrder`/`getSampleOrder`. -/
structure mzSample where
  fileName : String
  sampleName : String
  setName : String
  sampleOrder : Int
  isSelected : Bool
  color0 : ℚ
  color1 : ℚ
  color2 : ℚ
  color3 : ℚ
deriving DecidableEq

/-- A token of `QXmlStreamReader`: a start element with its attributes, character data, or
anything else (end elements, comments, the document start and end). -/
inductive XmlToken where
  | startElement (name : String) (attributes : List (String × String))
  | characters (text : String)
  | other
deriving DecidableEq

/-- The expression `xml.attributes().value(key).toString()`: the value of the attribute,
the empty string when the element has no such attribute. -/
def attributeValue (attributes : List (String × String)) (key : String) : String :=
  match attributes.find? (fun kv => kv.1 == key) with
  | some kv => kv.2
  | none => ""

/-- Everything `loadProject` obtains from outside `projectdockwidget.cpp`: the file
system and the Qt and ElMaven functions whose code is not under `src/`. -/
structure Env where
  /-- Opening the project file and tokenising it (`QFile::open`, `QXmlStreamReader`);
  `none` when the file cannot be opened. -/
  readXml : String → Option (List XmlToken)
  /-- Whether a file exists at a path (`QFileInfo::exists`). -/
  fileExists : String → Bool
  /-- The directory part of a path (`QFileInfo::path`). -/
  path : String → String
  /-- The name of the file a path names, without its directory (`QFileInfo::fileName`). -/
  baseName : String → String
  /-- The value of `QDir::separator()`. -/
  separator : String
  /-- The function `mzFileIO::loadSample`: the sample read from the file at a path, `none`
  (a `NULL` pointer) when it cannot be read. -/
  loadSample : String → Option mzSample
  /-- The function `MainWindow::addSample`: the window's sample list after the call, from
  the objects allocated so far, the list before the call and the pointer passed. -/
  addSample : List mzSample → List Nat → Nat → List Nat
  /-- The function `QString::toInt`. -/
  toInt : String → Int
  /-- The function `QString::toDouble`. -/
  toDouble : String → ℚ

/-- The part of the program state `loadProject` reads and writes.  `heap` lists every
`mzSample` object allocated so far, and a pointer to a sample is its index in `heap`;
`samples` is the main window's `vector<mzSample*> samples`; `lastDir` is the setting of
that name (empty when unset); `loaded` records, in order, the paths passed to
`mzFileIO::loadSample`. -/
structure Session where
  heap : List mzSample
  samples : List Nat
  lastDir : String
  projectDescription : String
  lastOpennedProject : String
  loaded : List String

/-- The local variables of the `while (!xml.atEnd())` loop of `loadProject`, next to the
session they work on. -/
structure LoopState where
  session : Session
  currentSample : Option Nat
  currentXmlElement : String
  currentSampleCount : Nat
  projectDescription : String

/-- Writing through a sample pointer: the object at index `p` of the heap is replaced by
its image under `f`. -/
def updateAt (heap : List mzSample) (p : Nat) (f : mzSample → mzSample) : List mzSample :=
  match heap[p]? with
  | some s => heap.set p (f s)
  | none => heap

/-- The loop at lines 477 to 480: whether some sample of the main window's list has the
file name `fname`. -/
def checkLoaded (S : Session) (fname : String) : Bool :=
  S.samples.any (fun p =>
    match S.heap[p]? with
    | some loadedFile => decide (loadedFile.fileName = fname)
    | none => false)

/-- The loop at lines 488 to 492, entered with the remaining candidate directories and the
current value of `fname`.  `sampleFile` is the path the `QFileInfo sampleFile` was
constructed from (line 486); the loop assigns to `fname` and tests `sampleFile.exists()`. -/
def relocate (env : Env) (sampleFile : String) : List String → String → String
  | [], fname => fname
  | path :: rest, _ =>
    let fname := path ++ env.separator ++ env.baseName sampleFile
    if env.fileExists sampleFile then fname else relocate env sampleFile rest fname

/-- Lines 485 to 493: the path that is handed to the loader for a `sample` element whose
`filename` attribute is `fname`. -/
def resolve (env : Env) (pathlist : List String) (fname : String) : String :=
  if !env.fileExists fname then relocate env fname pathlist fname else fname

/-- Lines 495 to 511: loading the sample at `fname` and registering it. -/
def loadOne (env : Env) (st : LoopState) (fname sname setname sampleOrder isSelected : String) :
    LoopState :=
  if fname ≠ "" then
    let S := { st.session with loaded := st.session.loaded ++ [fname] }
    match env.loadSample fname with
    | some s =>
      -- the new object gets the next free address
      let sample := S.heap.length
      let heap0 := S.heap ++ [s]
      let samples := env.addSample heap0 S.samples sample
      let heap1 := if sname ≠ "" then updateAt heap0 sample (fun x => { x with sampleName := sname })
        else heap0
      let heap2 := if setname ≠ "" then updateAt heap1 sample (fun x => { x with setName := setname })
        else heap1
      let heap3 := if sampleOrder ≠ "" then
          updateAt heap2 sample (fun x => { x with sampleOrder := env.toInt sampleOrder })
        else heap2
      let heap4 := if isSelected ≠ "" then
          updateAt heap3 sample (fun x => { x with isSelected := decide (env.toInt isSelected ≠ 0) })
        else heap3
      { st with session := { S with heap := heap4, samples := samples }, currentSample := some sample }
    | none => { st with session := S, currentSample := none }
  else st

/-- One iteration of the `while (!xml.atEnd())` loop of `loadProject` (lines 462 to 526),
on the token `xml.readNext()` delivers.  The status text and the progress bar are not
part of the state.  A start element is named `sample` or `color` or neither, so the two
`if`s on `xml.name()` are written as one chain; the `continue` of line 482 ends the
iteration. -/
def step (env : Env) (pathlist : List String) (st : LoopState) : XmlToken → LoopState
  | XmlToken.startElement name attributes =>
    let st := { st with currentXmlElement := name }
    if name = "sample" then
      let fname := attributeValue attributes "filename"
      let sname := attributeValue attributes "name"
      let setname := attributeValue attributes "setName"
      let sampleOrder := attributeValue attributes "sampleOrder"
      let isSelected := attributeValue attributes "isSelected"
      let st := { st with currentSampleCount := st.currentSampleCount + 1 }
      if checkLoaded st.session fname then st
      else loadOne env st (resolve env pathlist fname) sname setname sampleOrder isSelected
    else if name = "color" then
      match st.currentSample with
      | some currentSample =>
        let heap0 := updateAt st.session.heap currentSample
          (fun x => { x with color0 := env.toDouble (attributeValue attributes "red") })
        let heap1 := updateAt heap0 currentSample
          (fun x => { x with color1 := env.toDouble (attributeValue attributes "blue") })
        let heap2 := updateAt heap1 currentSample
          (fun x => { x with color2 := env.toDouble (attributeValue attributes "green") })
        let heap3 := updateAt heap2 currentSample
          (fun x => { x with color3 := env.toDouble (attributeValue attributes "alpha") })
        { st with session := { st.session with heap := heap3 } }
      | none => st
    else st
  | XmlToken.characters text =>
    if st.currentXmlElement = "projectDescription" then
      { st with projectDescription := st.projectDescription ++ text }
    else st
  | XmlToken.other => st

/-- The state of the loop variables before the first iteration (lines 450 to 460). -/
def initLoop (S : Session) : LoopState :=
  { session := S
    currentSample := none
    currentXmlElement := ""
    currentSampleCount := 0
    projectDescription := "" }

/-- The list `pathlist` of lines 452 to 455. -/
def pathlist (env : Env) (S : Session) (fileName : String) : List String :=
  [env.path fileName, ".", S.lastDir]

/-- The whole loop of `loadProject` over the tokens of the project file. -/
def runLoop (env : Env) (S : Session) (fileName : String) (tokens : List XmlToken) : LoopState :=
  tokens.foldl (step env (pathlist env S fileName)) (initLoop S)

/-- Function `ProjectDockWidget::loadProject(QString fileName)`.  The refresh of the other
widgets after the loop (lines 531 to 537) is not part of the state. -/
def loadProject (env : Env) (S : Session) (fileName : String) : Session :=
  match env.readXml fileName with
  | none => S
  | some tokens =>
    let fin := runLoop env S fileName tokens
    { fin.session with
      projectDescription := fin.projectDescription
      lastOpennedProject := fileName }

end ProjectDock

/-! ## Concrete inputs used to exercise the definitions -/

namespace PeakDetector

/-- A chromatogram of three points whose middle point has intensity `h`. -/
def sampleCurve (h : ℚ) : EIC :=
  { rt := [1, 2, 3]
    intensity := [0, h, 0]
    baselineSmoothingWindow := 0
    baselineDropTopX := 0
    smootherType := 0
    peaks := [] }

/-- A sample that answers every lookup, each overload with a curve of its own. -/
def fullSample : mzSample :=
  { getEIC_srm := fun _ => some (sampleCurve 1)
    getEIC_transition := fun _ _ _ _ _ => some (sampleCurve 2)
    getEIC_range := fun _ _ _ _ _ => some (sampleCurve 3) }

/-- A sample that has no chromatogram for any lookup. -/
def emptySample : mzSample :=
  { getEIC_srm := fun _ => none
    getEIC_transition := fun _ _ _ _ _ => none
    getEIC_range := fun _ _ _ _ _ => none }

/-- A peak picker that reports one peak at the middle point, carrying the parameters it
saw in the index fields so that they can be read off the result. -/
def midPicker : PeakPicker :=
  fun e w =>
    [{ sample := 0, pos := 1, minpos := e.baselineSmoothingWindow.toNat,
       maxpos := w.toNat, rtmin := 0, rtmax := 0 }]

/-- A compound of a targeted method, with precursor and product m/z. -/
def targetCompound : Compound :=
  { precursorMz := 180, productMz := 90, collisionEnergy := 15 }

/-- A slice that carries an SRM identifier and a targeted compound at the same time. -/
def srmSlice : mzSlice :=
  { mzmin := 100, mzmax := 101, rtmin := 2, rtmax := 4, srmId := "Q1=180 Q3=90",
    compound := some targetCompound }

/-- A slice without SRM identifier that references a targeted compound. -/
def targetSlice : mzSlice :=
  { mzmin := 100, mzmax := 101, rtmin := 2, rtmax := 4, srmId := "",
    compound := some targetCompound }

/-- A slice without SRM identifier and without compound. -/
def rangeSlice : mzSlice :=
  { mzmin := 100, mzmax := 101, rtmin := 2, rtmax := 4, srmId := "", compound := none }

/-- A peak of sample `sampleId` that spans the retention times `lo` to `hi`. -/
def peakOf (sampleId : Nat) (lo hi : ℚ) : Peak :=
  { sample := sampleId, pos := 1, minpos := 0, maxpos := 2, rtmin := lo, rtmax := hi }

/-- An overlap metric: 1 when the two spans intersect, 0 when they are disjoint. -/
def intersects (a b : ℚ × ℚ) : ℚ :=
  if a.1 ≤ b.2 ∧ b.1 ≤ a.2 then 1 else 0

/-- An accepted group set holding one group, with peaks in samples 1 and 2 between the
retention times 10 and 12. -/
def oneAccepted : MavenParameters :=
  { overlapFraction := intersects
    overlapThreshold := 1
    allgroups := [{ peaks := [peakOf 1 10 12, peakOf 2 10 11], quality := 5 }] }

/-- A candidate that overlaps the accepted group in sample 1 and brings a peak for
sample 3, with a higher quality. -/
def overlappingCandidate : PeakGroup :=
  { peaks := [peakOf 1 11 13, peakOf 3 11 12], quality := 8 }

/-- A candidate in the same samples, far away in retention time. -/
def distantCandidate : PeakGroup :=
  { peaks := [peakOf 1 30 31, peakOf 2 30 32], quality := 8 }

/-- A slice whose m/z window and retention-time window are both inverted. -/
def invertedSlice : mzSlice :=
  { mzmin := 101, mzmax := 100, rtmin := 4, rtmax := 2, srmId := "", compound := none }

end PeakDetector

namespace ProjectDock

/-! ## Vocabulary of the statements about `loadProject` -/

/-- A sample with file name `f` is in the main window's list: some pointer of `samples`
points to an object of `heap` whose `fileName` is `f`. -/
def Listed (heap : List mzSample) (samples : List Nat) (f : String) : Prop :=
  ∃ p ∈ samples, ∃ s : mzSample, heap[p]? = some s ∧ s.fileName = f

/-- Every object of `heap` is still at its address in `heap1`, under the same
`fileName`. -/
def NameKept (heap heap1 : List mzSample) : Prop :=
  ∀ (p : Nat) (s : mzSample), heap[p]? = some s →
    ∃ s1 : mzSample, heap1[p]? = some s1 ∧ s1.fileName = s.fileName

/-- A second visit of a `sample` element with file name `f` adds nothing: the sample is
listed, or the loader has no sample for `f`, or `f` is empty. -/
def Settled (env : Env) (heap : List mzSample) (samples : List Nat) (f : String) : Prop :=
  Listed heap samples f ∨ env.loadSample f = none ∨ f = ""

/-! ## Concrete inputs used to exercise `loadProject` -/

/-- The file name of a path: what follows its last `/`. -/
def fileNameOf (p : String) : String :=
  String.mk ((p.toList.reverse.takeWhile (fun ch => decide (ch ≠ '/'))).reverse)

/-- The directory of a path: what precedes its last `/`. -/
def directoryOf (p : String) : String :=
  String.mk (((p.toList.reverse.dropWhile (fun ch => decide (ch ≠ '/'))).drop 1).reverse)

/-- A sample as the loader delivers it for the file at `p`: named after the file, not
selected, black. -/
def freshSample (p : String) : mzSample :=
  { fileName := p, sampleName := fileNameOf p, setName := "", sampleOrder := 0,
    isSelected := false, color0 := 0, color1 := 0, color2 := 0, color3 := 1 }

/-- The tokens of a project file with one sample, recorded at `/data/old/a.mzXML`, and
its colour. -/
def oneSampleProject : List XmlToken :=
  [XmlToken.startElement "project" [],
    XmlToken.startElement "samples" [],
    XmlToken.startElement "sample"
      [("name", "a"), ("filename", "/data/old/a.mzXML"), ("sampleOrder", "1"),
        ("setName", "ctrl"), ("isSelected", "1")],
    XmlToken.startElement "color" [("red", "r"), ("blue", "b"), ("green", "g"), ("alpha", "a")],
    XmlToken.other,
    XmlToken.other,
    XmlToken.other,
    XmlToken.startElement "projectDescription" [],
    XmlToken.characters "demo",
    XmlToken.other,
    XmlToken.other]

/-- An environment in which exactly the files listed in `files` exist, the project file
`/proj/p.mzroll` holds `oneSampleProject`, every existing file loads, and
`MainWindow::addSample` appends the pointer to the list. -/
def envWith (files : List String) : Env :=
  { readXml := fun f => if f = "/proj/p.mzroll" then some oneSampleProject else none
    fileExists := fun p => decide (p ∈ files)
    path := directoryOf
    baseName := fileNameOf
    separator := "/"
    loadSample := fun p => if p ∈ files then some (freshSample p) else none
    addSample := fun _ samples sample => samples ++ [sample]
    toInt := fun t => if t = "1" then 1 else 0
    toDouble := fun t => if t = "r" then 1 / 4 else if t = "b" then 1 / 2 else
      if t = "g" then 3 / 4 else 1 }

/-- A session in which the sample of `/data/old/a.mzXML` is loaded and listed. -/
def listedSession : Session :=
  { heap := [freshSample "/data/old/a.mzXML"], samples := [0], lastDir := "/last",
    projectDescription := "", lastOpennedProject := "", loaded := ["/data/old/a.mzXML"] }

/-- A session with no sample loaded, whose last used directory is `dir`. -/
def emptySession (dir : String) : Session :=
  { heap := [], samples := [], lastDir := dir, projectDescription := "",
    lastOpennedProject := "", loaded := [] }

end ProjectDock

namespace ProjectDock

/-! ## `ProjectDockWidget::unloadSample` -/

/-- The loop of lines 637 to 642 on the main window's sample list: the list is walked from
the front, the first entry equal to `sample` is erased, and the walk stops there
(`break`). -/
def eraseSample (sample : Nat) : List Nat → List Nat
  | [] => []
  | x :: rest => if x = sample then rest else x :: eraseSample sample rest

/-- Function `ProjectDockWidget::unloadSample()`.  `currentItem` is what
`_treeWidget->currentItem()` returns: `none` when there is no current item, otherwise the
sample pointer stored in the item, which may be `NULL`.  The tree item that is hidden, the
scan data that `delete_all(sample->scans)` frees and the replot are not part of the
state. -/
def unloadSample (S : Session) (currentItem : Option (Option Nat)) : Session :=
  match currentItem with
  | some (some sample) =>
    { S with
      heap := updateAt S.heap sample (fun x => { x with isSelected := false })
      samples := eraseSample sample S.samples }
  | some none => S
  | none => S

/-! ## `ProjectDockWidget::saveProject` -/

/-- The two overloads of `QString::number` that `saveProject` calls, whose code is not under
`src/`: `number` formats an `int`, `numberF2` is `QString::number(x, 'f', 2)`. -/
structure Printer where
  number : Int → String
  numberF2 : ℚ → String

/-- Lines 563 to 576: what `saveProject` writes for one sample, the `sample` element with
its attributes, the `color` element inside it, and the two end elements. -/
def writeSample (pr : Printer) (sample : mzSample) : List XmlToken :=
  [XmlToken.startElement "sample"
      [("name", sample.sampleName), ("filename", sample.fileName),
        ("sampleOrder", pr.number sample.sampleOrder), ("setName", sample.setName),
        ("isSelected", pr.number (if sample.isSelected = true then 1 else 0))],
    XmlToken.startElement "color"
      [("red", pr.numberF2 sample.color0), ("blue", pr.numberF2 sample.color1),
        ("green", pr.numberF2 sample.color2), ("alpha", pr.numberF2 sample.color3)],
    XmlToken.other,
    XmlToken.other]

/-- Function `ProjectDockWidget::saveProject(QString filename, TableDockWidget* peakTable)`:
the tokens written to the file, `none` when `filename` is empty or the file cannot be
opened (`opened` is the result of `file.open`).  A pointer of the sample list that points
to no object is skipped like a `NULL` pointer (line 561).  `peakTableXml` is what
`writePeakTableXML` writes, whose code is not under `src/`.  The setting
`lastSavedProject` is not part of the state. -/
def saveProject (pr : Printer) (S : Session) (peakTableXml : List XmlToken)
    (filename : String) (opened : Bool) : Option (List XmlToken) :=
  if filename = "" then none
  else if !opened then none
  else
    some ([XmlToken.startElement "project" [], XmlToken.startElement "samples" []] ++
      S.samples.flatMap (fun p =>
        match S.heap[p]? with
        | some sample => writeSample pr sample
        | none => []) ++
      [XmlToken.other,
        XmlToken.startElement "projectDescription" [],
        XmlToken.characters S.projectDescription,
        XmlToken.other] ++
      peakTableXml ++
      [XmlToken.other])

/-! ## Concrete inputs used to exercise `unloadSample` and `saveProject` -/

/-- A sample of the file at `p` with the colour components `c0` to `c3`. -/
def colouredSample (p : String) (c0 c1 c2 c3 : ℚ) : mzSample :=
  { fileName := p, sampleName := fileNameOf p, setName := "", sampleOrder := 0,
    isSelected := true, color0 := c0, color1 := c1, color2 := c2, color3 := c3 }

/-- A session with two samples: `b.mzXML` with colour (1, 0, 0, 1) and `c.mzXML` with
colour (0, 0, 1, 1). -/
def savedSession : Session :=
  { heap := [colouredSample "/data/b.mzXML" 1 0 0 1, colouredSample "/data/c.mzXML" 0 0 1 1],
    samples := [0, 1], lastDir := "/last", projectDescription := "two samples",
    lastOpennedProject := "", loaded := [] }

/-- A printer for the numbers 0 and 1: `0`, `1` and, with two decimals, `0.00`, `1.00`. -/
def plainPrinter : Printer :=
  { number := fun n => if n = 1 then "1" else "0"
    numberF2 := fun x => if x = 1 then "1.00" else "0.00" }

/-- An environment in which `b.mzXML` and `c.mzXML` exist in `/data`, the project file
`/proj/q.mzroll` holds what `saveProject` wrote for `savedSession`, and `toDouble` reads
`1.00` and `0.00` back. -/
def roundTripEnv : Env :=
  { envWith ["/data/b.mzXML", "/data/c.mzXML"] with
    readXml := fun f =>
      if f = "/proj/q.mzroll" then saveProject plainPrinter savedSession [] "/proj/q.mzroll" true
      else none
    toDouble := fun t => if t = "1.00" then 1 else 0 }

/-- A session in which `c.mzXML` is loaded, as the loader delivers it, and nothing else. -/
def sessionWithC : Session :=
  { heap := [freshSample "/data/c.mzXML"], samples := [0], lastDir := "/last",
    projectDescription := "", lastOpennedProject := "", loaded := ["/data/c.mzXML"] }

/-- A session whose sample list holds the pointer 1 twice, between 0 and 2. -/
def repeatedSession : Session :=
  { heap := [freshSample "/data/a.mzXML", colouredSample "/data/b.mzXML" 1 0 0 1,
      freshSample "/data/c.mzXML"],
    samples := [0, 1, 2, 1], lastDir := "/last", projectDescription := "",
    lastOpennedProject := "", loaded := [] }

end ProjectDock

/-! ## Theorems about `EicLoader` -/

namespace PeakDetector

/-- The calls of a run start with the lookup chosen by the selection chain. -/
theorem run_calls_head (pick : PeakPicker) (L : EicLoader) (sample : mzSample) :
    (L.run pick sample).calls.head? = some (L.fetch sample).2 := by
  simp [EicLoader.run]

/-- The call list of a run, spelled out by the two tests the code makes after the lookup. -/
theorem run_calls_eq (pick : PeakPicker) (L : EicLoader) (sample : mzSample) :
    (L.run pick sample).calls =
      (L.fetch sample).2 ::
        (if (L.fetch sample).1.isSome then
          [Call.setBaselineSmoothingWindow L.eic_baselne_smoothingWindow,
            Call.setBaselineDropTopX L.eic_baselne_dropTopX,
            Call.setSmootherType L.eic_smoothingAlgorithm] ++
          (if L.pdetect = PeakDetectionFlag.PeakDetection then
            [Call.getPeakPositions L.eic_smoothingWindow] else [])
        else []) := by
  unfold EicLoader.run
  cases h : (L.fetch sample).1 <;> by_cases hp : L.pdetect = PeakDetectionFlag.PeakDetection <;>
    simp [hp]

/-- The lookup chosen by the selection chain is one of the three `getEIC` overloads. -/
theorem fetch_isLookup (L : EicLoader) (sample : mzSample) :
    (L.fetch sample).2.isLookup = true := by
  unfold EicLoader.fetch
  by_cases hs : L.slice.srmId ≠ ""
  · simp [hs, Call.isLookup]
  · cases hc : L.slice.compound with
    | none => simp [hs, Call.isLookup]
    | some c =>
      by_cases hq : 0 < c.precursorMz ∧ 0 < c.productMz <;> simp [hs, hq, Call.isLookup]

/-- A run makes exactly one lookup, the one chosen by the selection chain. -/
theorem run_lookups (pick : PeakPicker) (L : EicLoader) (sample : mzSample) :
    (L.run pick sample).calls.filter Call.isLookup = [(L.fetch sample).2] := by
  rw [run_calls_eq, List.filter_cons, if_pos (fetch_isLookup L sample)]
  by_cases h1 : (L.fetch sample).1.isSome <;>
    by_cases hp : L.pdetect = PeakDetectionFlag.PeakDetection <;>
    simp [h1, hp, Call.isLookup]

/-- The returned chromatogram is the fetched one: it is `NULL` exactly when the lookup
gave `NULL`, and it has the fetched curve. -/
theorem run_eic_curve (pick : PeakPicker) (L : EicLoader) (sample : mzSample) :
    (L.run pick sample).eic.map (fun e => (e.rt, e.intensity)) =
      (L.fetch sample).1.map (fun e => (e.rt, e.intensity)) := by
  unfold EicLoader.run
  cases h : (L.fetch sample).1 <;> by_cases hp : L.pdetect = PeakDetectionFlag.PeakDetection <;>
    simp [hp, EIC.setBaselineSmoothingWindow, EIC.setBaselineDropTopX, EIC.setSmootherType,
      EIC.getPeakPositions]

/-- The lookup chosen for a slice that carries an SRM identifier. -/
theorem fetch_srm (L : EicLoader) (sample : mzSample) (h : L.slice.srmId ≠ "") :
    L.fetch sample = (sample.getEIC_srm L.slice.srmId, Call.getEIC_srm L.slice.srmId) := by
  simp [EicLoader.fetch, h]

/-- The lookup chosen for a slice without SRM identifier whose compound has a positive
precursor and product m/z. -/
theorem fetch_transition (L : EicLoader) (sample : mzSample) (c : Compound)
    (hs : L.slice.srmId = "") (hc : L.slice.compound = some c)
    (h1 : 0 < c.precursorMz) (h2 : 0 < c.productMz) :
    L.fetch sample =
      (sample.getEIC_transition c.precursorMz c.collisionEnergy c.productMz
          L.eic_amuQ1 L.eic_amuQ2,
        Call.getEIC_transition c.precursorMz c.collisionEnergy c.productMz
          L.eic_amuQ1 L.eic_amuQ2) := by
  simp [EicLoader.fetch, hs, hc, h1, h2]

/-- The lookup chosen for a slice without SRM identifier whose compound is absent or lacks
a positive precursor or product m/z. -/
theorem fetch_range (L : EicLoader) (sample : mzSample) (hs : L.slice.srmId = "")
    (hc : ∀ c, L.slice.compound = some c → ¬ (0 < c.precursorMz ∧ 0 < c.productMz)) :
    L.fetch sample =
      (sample.getEIC_range L.slice.mzmin L.slice.mzmax L.slice.rtmin L.slice.rtmax 1,
        Call.getEIC_range L.slice.mzmin L.slice.mzmax L.slice.rtmin L.slice.rtmax 1) := by
  unfold EicLoader.fetch
  cases hcomp : L.slice.compound with
  | none => simp [hs]
  | some c =>
    have := hc c hcomp
    simp [hs, this]

/-- The chromatogram a run returns when the lookup gave one. -/
theorem run_eic_some (pick : PeakPicker) (L : EicLoader) (sample : mzSample) (e : EIC)
    (h : (L.fetch sample).1 = some e) :
    (L.run pick sample).eic =
      some (if L.pdetect = PeakDetectionFlag.PeakDetection then
        (((e.setBaselineSmoothingWindow L.eic_baselne_smoothingWindow).setBaselineDropTopX
          L.eic_baselne_dropTopX).setSmootherType L.eic_smoothingAlgorithm).getPeakPositions
          pick L.eic_smoothingWindow
      else
        ((e.setBaselineSmoothingWindow L.eic_baselne_smoothingWindow).setBaselineDropTopX
          L.eic_baselne_dropTopX).setSmootherType L.eic_smoothingAlgorithm) := by
  unfold EicLoader.run
  by_cases hp : L.pdetect = PeakDetectionFlag.PeakDetection <;> simp [h, hp]

/-- A run returns `NULL` when the lookup gave `NULL`. -/
theorem run_eic_none (pick : PeakPicker) (L : EicLoader) (sample : mzSample)
    (h : (L.fetch sample).1 = none) : (L.run pick sample).eic = none := by
  unfold EicLoader.run
  by_cases hp : L.pdetect = PeakDetectionFlag.PeakDetection <;> simp [h, hp]

/-- C1: for every sample and every slice whose `srmId` is non-empty, the only lookup
`EicLoader::operator()` makes is `getEIC(srmId)` (so neither the transition lookup nor the
m/z-range lookup is used, whatever compound the slice carries), and the chromatogram it
returns is the one that lookup gave: `NULL` exactly when the lookup gave `NULL`, and with
the same curve. -/
theorem srm_identifier_has_priority (pick : PeakPicker) (L : EicLoader) (sample : mzSample)
    (h : L.slice.srmId ≠ "") :
    (L.run pick sample).calls.filter Call.isLookup = [Call.getEIC_srm L.slice.srmId] ∧
    (L.run pick sample).eic.map (fun e => (e.rt, e.intensity)) =
      (sample.getEIC_srm L.slice.srmId).map (fun e => (e.rt, e.intensity)) := by
  rw [run_lookups, run_eic_curve, fetch_srm L sample h]
  exact ⟨rfl, rfl⟩

/-- Witness of C1 on a slice that carries an SRM identifier together with a compound whose
precursor and product m/z are both positive. -/
theorem srm_identifier_has_priority_witness :
    (srmSlice.srmId ≠ "" ∧
      ∃ c, srmSlice.compound = some c ∧ 0 < c.precursorMz ∧ 0 < c.productMz) ∧
    (((EicLoader.newDefault srmSlice).run midPicker fullSample).calls.filter Call.isLookup
        = [Call.getEIC_srm "Q1=180 Q3=90"] ∧
      ((EicLoader.newDefault srmSlice).run midPicker fullSample).eic.map
          (fun e => (e.rt, e.intensity))
        = (fullSample.getEIC_srm "Q1=180 Q3=90").map (fun e => (e.rt, e.intensity))) :=
  ⟨⟨by decide, targetCompound, rfl, by decide, by decide⟩,
    srm_identifier_has_priority midPicker (EicLoader.newDefault srmSlice) fullSample
      (by decide)⟩

/-- C2: for every slice with an empty `srmId` and a compound whose `precursorMz` and
`productMz` are both positive, the only lookup `EicLoader::operator()` makes is the
transition lookup `getEIC(precursorMz, collisionEnergy, productMz, amuQ1, amuQ2)` with the
tolerances `amuQ1`, `amuQ2` passed to the constructor, and the chromatogram it returns is
the one that lookup gave. -/
theorem targeted_mode_uses_transition (pick : PeakPicker) (sample : mzSample)
    (islice : mzSlice) (iflag : PeakDetectionFlag) (smoothingWindow smoothingAlgorithm : Int)
    (amuQ1 amuQ2 : ℚ) (baselineSmoothingWindow baselineDropTopX : Int) (c : Compound)
    (hs : islice.srmId = "") (hc : islice.compound = some c)
    (h1 : 0 < c.precursorMz) (h2 : 0 < c.productMz) :
    ((EicLoader.new islice iflag smoothingWindow smoothingAlgorithm amuQ1 amuQ2
        baselineSmoothingWindow baselineDropTopX).run pick sample).calls.filter Call.isLookup
      = [Call.getEIC_transition c.precursorMz c.collisionEnergy c.productMz amuQ1 amuQ2] ∧
    ((EicLoader.new islice iflag smoothingWindow smoothingAlgorithm amuQ1 amuQ2
        baselineSmoothingWindow baselineDropTopX).run pick sample).eic.map
        (fun e => (e.rt, e.intensity))
      = (sample.getEIC_transition c.precursorMz c.collisionEnergy c.productMz amuQ1 amuQ2).map
        (fun e => (e.rt, e.intensity)) := by
  rw [run_lookups, run_eic_curve,
    fetch_transition (EicLoader.new islice iflag smoothingWindow smoothingAlgorithm amuQ1 amuQ2
      baselineSmoothingWindow baselineDropTopX) sample c hs hc h1 h2]
  exact ⟨rfl, rfl⟩

/-- Witness of C2: tolerances 3 and 4 given to the constructor, on a slice whose m/z
window is `[100, 101]`. -/
theorem targeted_mode_uses_transition_witness :
    ((EicLoader.new targetSlice PeakDetectionFlag.PeakDetection 5 0 3 4 5 40).run
        midPicker fullSample).calls.filter Call.isLookup
      = [Call.getEIC_transition 180 15 90 3 4] ∧
    ((EicLoader.new targetSlice PeakDetectionFlag.PeakDetection 5 0 3 4 5 40).run
        midPicker fullSample).eic.map (fun e => (e.rt, e.intensity))
      = (fullSample.getEIC_transition 180 15 90 3 4).map (fun e => (e.rt, e.intensity)) :=
  targeted_mode_uses_transition midPicker fullSample targetSlice
    PeakDetectionFlag.PeakDetection 5 0 3 4 5 40 targetCompound rfl rfl
    (by decide) (by decide)

/-- C3: for every slice with an empty `srmId` whose compound is absent, or has
`precursorMz <= 0`, or has `productMz <= 0`, the only lookup `EicLoader::operator()` makes
is the range lookup `getEIC(slice.mzmin, slice.mzmax, slice.rtmin, slice.rtmax, 1)` and
the chromatogram it returns is the one that lookup gave; and the lookup made for a slice
is of exactly one of the three kinds: SRM exactly when `srmId` is non-empty, transition
exactly when `srmId` is empty and the compound has positive precursor and product m/z,
range exactly in the remaining case. -/
theorem untargeted_fallback_and_case_split (pick : PeakPicker) (L : EicLoader)
    (sample : mzSample) :
    (L.slice.srmId = "" →
      (L.slice.compound = none ∨
        ∃ c, L.slice.compound = some c ∧ (c.precursorMz ≤ 0 ∨ c.productMz ≤ 0)) →
      (L.run pick sample).calls.filter Call.isLookup =
          [Call.getEIC_range L.slice.mzmin L.slice.mzmax L.slice.rtmin L.slice.rtmax 1] ∧
        (L.run pick sample).eic.map (fun e => (e.rt, e.intensity)) =
          (sample.getEIC_range L.slice.mzmin L.slice.mzmax L.slice.rtmin L.slice.rtmax 1).map
            (fun e => (e.rt, e.intensity))) ∧
    (∃ k, (L.run pick sample).calls.filterMap Call.selectionCase = [k]) ∧
    ((L.run pick sample).calls.filterMap Call.selectionCase = [SelectionCase.srm] ↔
      L.slice.srmId ≠ "") ∧
    ((L.run pick sample).calls.filterMap Call.selectionCase = [SelectionCase.transition] ↔
      L.slice.srmId = "" ∧
        ∃ c, L.slice.compound = some c ∧ 0 < c.precursorMz ∧ 0 < c.productMz) ∧
    ((L.run pick sample).calls.filterMap Call.selectionCase = [SelectionCase.range] ↔
      L.slice.srmId = "" ∧
        (L.slice.compound = none ∨
          ∃ c, L.slice.compound = some c ∧ (c.precursorMz ≤ 0 ∨ c.productMz ≤ 0))) := by
  have hcases : (L.run pick sample).calls.filterMap Call.selectionCase =
      ((L.fetch sample).2.selectionCase).toList := by
    rw [run_calls_eq, List.filterMap_cons]
    cases hk : (L.fetch sample).2.selectionCase <;>
      by_cases h1 : (L.fetch sample).1.isSome <;>
      by_cases hp : L.pdetect = PeakDetectionFlag.PeakDetection <;>
      simp [h1, hp, Call.selectionCase]
  rw [hcases]
  by_cases hs : L.slice.srmId = ""
  · rcases Option.eq_none_or_eq_some L.slice.compound with hcomp | ⟨c, hcomp⟩
    · have hf := fetch_range L sample hs (by simp [hcomp])
      refine ⟨fun _ _ => ?_, ?_, ?_, ?_, ?_⟩
      · rw [run_lookups, run_eic_curve, hf]; exact ⟨rfl, rfl⟩
      · exact ⟨SelectionCase.range, by rw [hf]; rfl⟩
      · rw [hf]; simp [Call.selectionCase, hs]
      · rw [hf]; simp [Call.selectionCase, hcomp]
      · rw [hf]; simp [Call.selectionCase, hs, hcomp]
    · by_cases hq : 0 < c.precursorMz ∧ 0 < c.productMz
      · have hf := fetch_transition L sample c hs hcomp hq.1 hq.2
        refine ⟨fun _ h => ?_, ?_, ?_, ?_, ?_⟩
        · rcases h with h | ⟨c', hc', h'⟩
          · rw [hcomp] at h; cases h
          · rw [hcomp] at hc'; cases hc'
            rcases h' with h' | h'
            · exact absurd hq.1 (not_lt.mpr h')
            · exact absurd hq.2 (not_lt.mpr h')
        · exact ⟨SelectionCase.transition, by rw [hf]; rfl⟩
        · rw [hf]; simp [Call.selectionCase, hs]
        · rw [hf]; simp [Call.selectionCase, hs, hcomp, hq.1, hq.2]
        · rw [hf]
          simp only [Call.selectionCase, Option.toList, List.cons.injEq, and_true]
          constructor
          · intro h; cases h
          · rintro ⟨_, h⟩
            rcases h with h | ⟨c', hc', h'⟩
            · rw [hcomp] at h; cases h
            · rw [hcomp] at hc'; cases hc'
              rcases h' with h' | h'
              · exact absurd hq.1 (not_lt.mpr h')
              · exact absurd hq.2 (not_lt.mpr h')
      · have hf := fetch_range L sample hs (by
          intro c' hc'
          rw [hcomp] at hc'; cases hc'
          exact hq)
        have hle : c.precursorMz ≤ 0 ∨ c.productMz ≤ 0 := by
          by_cases h1 : 0 < c.precursorMz
          · right
            exact not_lt.mp (fun h2 => hq ⟨h1, h2⟩)
          · left
            exact not_lt.mp h1
        refine ⟨fun _ _ => ?_, ?_, ?_, ?_, ?_⟩
        · rw [run_lookups, run_eic_curve, hf]; exact ⟨rfl, rfl⟩
        · exact ⟨SelectionCase.range, by rw [hf]; rfl⟩
        · rw [hf]; simp [Call.selectionCase, hs]
        · rw [hf]
          simp only [Call.selectionCase, Option.toList, List.cons.injEq, and_true]
          constructor
          · intro h; cases h
          · rintro ⟨_, c', hc', h'⟩
            rw [hcomp] at hc'; cases hc'
            exact absurd h' hq
        · rw [hf]
          simp only [Call.selectionCase, Option.toList, true_iff]
          exact ⟨hs, Or.inr ⟨c, hcomp, hle⟩⟩
  · have hf := fetch_srm L sample hs
    refine ⟨fun h => absurd h hs, ?_, ?_, ?_, ?_⟩
    · exact ⟨SelectionCase.srm, by rw [hf]; rfl⟩
    · rw [hf]; simp [Call.selectionCase, hs]
    · rw [hf]; simp [Call.selectionCase, hs]
    · rw [hf]; simp [Call.selectionCase, hs]

/-- Witness of C3 on a slice without SRM identifier and without compound. -/
theorem untargeted_fallback_and_case_split_witness :
    ((EicLoader.newDefault rangeSlice).run midPicker fullSample).calls.filter Call.isLookup
      = [Call.getEIC_range 100 101 2 4 1] ∧
    ((EicLoader.newDefault rangeSlice).run midPicker fullSample).eic.map
        (fun e => (e.rt, e.intensity))
      = (fullSample.getEIC_range 100 101 2 4 1).map (fun e => (e.rt, e.intensity)) :=
  (untargeted_fallback_and_case_split midPicker (EicLoader.newDefault rangeSlice)
    fullSample).1 rfl (Or.inl rfl)

/-- C4: for every sample and slice for which the lookup chosen by the selection chain yields
no chromatogram, `EicLoader::operator()` returns `NULL`, and the lookup is the only call
it makes: no setter of a baseline or smoother parameter is called and no peak picking
runs, whatever the peak-detection flag. -/
theorem no_data_returns_null (pick : PeakPicker) (L : EicLoader) (sample : mzSample)
    (h : (L.fetch sample).1 = none) :
    (L.run pick sample).eic = none ∧
    (L.run pick sample).calls = [(L.fetch sample).2] ∧
    (L.run pick sample).calls.filter Call.isSetter = [] ∧
    (L.run pick sample).calls.filter Call.isPeakPicking = [] := by
  have hc : (L.run pick sample).calls = [(L.fetch sample).2] := by
    rw [run_calls_eq]
    simp [h]
  have hl := fetch_isLookup L sample
  refine ⟨run_eic_none pick L sample h, hc, ?_, ?_⟩
  · rw [hc]
    cases hk : (L.fetch sample).2 <;> simp [hk, Call.isLookup, Call.isSetter] at hl ⊢
  · rw [hc]
    cases hk : (L.fetch sample).2 <;> simp [hk, Call.isLookup, Call.isPeakPicking] at hl ⊢

/-- Witness of C4: a loader built with the PeakDetection flag, on a sample without data. -/
theorem no_data_returns_null_witness :
    ((EicLoader.new rangeSlice PeakDetectionFlag.PeakDetection 5 0 3 4 5 40).run
        midPicker emptySample).eic = none ∧
    ((EicLoader.new rangeSlice PeakDetectionFlag.PeakDetection 5 0 3 4 5 40).run
        midPicker emptySample).calls = [Call.getEIC_range 100 101 2 4 1] ∧
    ((EicLoader.new rangeSlice PeakDetectionFlag.PeakDetection 5 0 3 4 5 40).run
        midPicker emptySample).calls.filter Call.isSetter = [] ∧
    ((EicLoader.new rangeSlice PeakDetectionFlag.PeakDetection 5 0 3 4 5 40).run
        midPicker emptySample).calls.filter Call.isPeakPicking = [] :=
  no_data_returns_null midPicker
    (EicLoader.new rangeSlice PeakDetectionFlag.PeakDetection 5 0 3 4 5 40) emptySample rfl

/-- C5: for every sample and slice for which the lookup yields a chromatogram, the
chromatogram `EicLoader::operator()` returns has baseline smoothing window, drop-top-X and
smoother type equal to the constructor arguments `baselineSmoothingWindow`,
`baselineDropTopX` and `smoothingAlgorithm`, in every selection mode and with either
peak-detection flag. -/
theorem parameters_attached_on_success (pick : PeakPicker) (sample : mzSample)
    (islice : mzSlice) (iflag : PeakDetectionFlag) (smoothingWindow smoothingAlgorithm : Int)
    (amuQ1 amuQ2 : ℚ) (baselineSmoothingWindow baselineDropTopX : Int) (e : EIC)
    (h : ((EicLoader.new islice iflag smoothingWindow smoothingAlgorithm amuQ1 amuQ2
        baselineSmoothingWindow baselineDropTopX).fetch sample).1 = some e) :
    ∃ r, ((EicLoader.new islice iflag smoothingWindow smoothingAlgorithm amuQ1 amuQ2
        baselineSmoothingWindow baselineDropTopX).run pick sample).eic = some r ∧
      r.baselineSmoothingWindow = baselineSmoothingWindow ∧
      r.baselineDropTopX = baselineDropTopX ∧
      r.smootherType = smoothingAlgorithm := by
  rw [run_eic_some pick _ sample e h]
  refine ⟨_, rfl, ?_⟩
  by_cases hp : iflag = PeakDetectionFlag.PeakDetection <;>
    simp [hp, EicLoader.new, EIC.setBaselineSmoothingWindow, EIC.setBaselineDropTopX,
      EIC.setSmootherType, EIC.getPeakPositions]

/-- Witness of C5: targeted mode with peak detection, parameters 9, 25 and 2. -/
theorem parameters_attached_on_success_witness :
    ∃ r, ((EicLoader.new targetSlice PeakDetectionFlag.PeakDetection 5 2 3 4 9 25).run
        midPicker fullSample).eic = some r ∧
      r.baselineSmoothingWindow = 9 ∧ r.baselineDropTopX = 25 ∧ r.smootherType = 2 :=
  parameters_attached_on_success midPicker fullSample targetSlice
    PeakDetectionFlag.PeakDetection 5 2 3 4 9 25 (sampleCurve 2) (by decide)

/-- C6: the calls of `EicLoader::operator()` contain `getPeakPositions` if and only if the
loader was constructed with the PeakDetection flag and the lookup gave a chromatogram;
then it is called once, with the constructor's `smoothingWindow`, as the last call, after
the three setters, on the chromatogram that already carries the constructor's baseline
window, drop-top-X and smoother type.  A loader built with the default flag never
calls it. -/
theorem peak_picking_runs_iff_requested (pick : PeakPicker) (sample : mzSample)
    (islice : mzSlice) (iflag : PeakDetectionFlag) (smoothingWindow smoothingAlgorithm : Int)
    (amuQ1 amuQ2 : ℚ) (baselineSmoothingWindow baselineDropTopX : Int) (L : EicLoader)
    (hL : L = EicLoader.new islice iflag smoothingWindow smoothingAlgorithm amuQ1 amuQ2
      baselineSmoothingWindow baselineDropTopX) :
    ((L.run pick sample).calls.filter Call.isPeakPicking =
      if iflag = PeakDetectionFlag.PeakDetection ∧ (L.fetch sample).1.isSome then
        [Call.getPeakPositions smoothingWindow]
      else []) ∧
    (iflag = PeakDetectionFlag.PeakDetection → ∀ e, (L.fetch sample).1 = some e →
      (L.run pick sample).calls =
        [(L.fetch sample).2, Call.setBaselineSmoothingWindow baselineSmoothingWindow,
          Call.setBaselineDropTopX baselineDropTopX, Call.setSmootherType smoothingAlgorithm,
          Call.getPeakPositions smoothingWindow] ∧
      ∃ e1 : EIC, e1.baselineSmoothingWindow = baselineSmoothingWindow ∧
        e1.baselineDropTopX = baselineDropTopX ∧ e1.smootherType = smoothingAlgorithm ∧
        e1.rt = e.rt ∧ e1.intensity = e.intensity ∧
        (L.run pick sample).eic = some (e1.getPeakPositions pick smoothingWindow)) ∧
    ((EicLoader.newDefault islice).run pick sample).calls.filter Call.isPeakPicking = [] := by
  have hlook : ∀ M : EicLoader, Call.isPeakPicking (M.fetch sample).2 = false := by
    intro M
    have hl := fetch_isLookup M sample
    cases hk : (M.fetch sample).2 <;> simp [hk, Call.isLookup, Call.isPeakPicking] at hl ⊢
  have hf : ∀ M : EicLoader, (M.run pick sample).calls.filter Call.isPeakPicking =
      if M.pdetect = PeakDetectionFlag.PeakDetection ∧ (M.fetch sample).1.isSome then
        [Call.getPeakPositions M.eic_smoothingWindow]
      else [] := by
    intro M
    rw [run_calls_eq, List.filter_cons, hlook M]
    by_cases h1 : (M.fetch sample).1.isSome <;>
      by_cases hp : M.pdetect = PeakDetectionFlag.PeakDetection <;>
      simp [h1, hp, Call.isPeakPicking]
  refine ⟨?_, ?_, ?_⟩
  · rw [hf L]
    subst hL
    rfl
  · intro hflag e he
    have hpd : L.pdetect = PeakDetectionFlag.PeakDetection := by
      subst hL
      exact hflag
    constructor
    · rw [run_calls_eq, he]
      simp only [Option.isSome_some, if_pos hpd, if_true]
      subst hL
      rfl
    · refine ⟨((e.setBaselineSmoothingWindow L.eic_baselne_smoothingWindow).setBaselineDropTopX
          L.eic_baselne_dropTopX).setSmootherType L.eic_smoothingAlgorithm, ?_, ?_, ?_, rfl, rfl, ?_⟩
      · subst hL; rfl
      · subst hL; rfl
      · subst hL; rfl
      · rw [run_eic_some pick L sample e he, if_pos hpd]
        subst hL
        rfl
  · rw [hf (EicLoader.newDefault islice)]
    simp [EicLoader.newDefault, EicLoader.new]

/-- Witness of C6: peak detection requested with smoothing window 7 on a sample that has
the chromatogram; the peak the picker reports shows the baseline window 9 it saw. -/
theorem peak_picking_runs_iff_requested_witness :
    ((EicLoader.new rangeSlice PeakDetectionFlag.PeakDetection 7 2 3 4 9 25).run
        midPicker fullSample).calls =
      [Call.getEIC_range 100 101 2 4 1, Call.setBaselineSmoothingWindow 9,
        Call.setBaselineDropTopX 25, Call.setSmootherType 2, Call.getPeakPositions 7] ∧
    ∃ e1 : EIC, e1.baselineSmoothingWindow = 9 ∧ e1.baselineDropTopX = 25 ∧
      e1.smootherType = 2 ∧ e1.rt = (sampleCurve 3).rt ∧
      e1.intensity = (sampleCurve 3).intensity ∧
      ((EicLoader.new rangeSlice PeakDetectionFlag.PeakDetection 7 2 3 4 9 25).run
        midPicker fullSample).eic = some (e1.getPeakPositions midPicker 7) :=
  (peak_picking_runs_iff_requested midPicker fullSample rangeSlice
    PeakDetectionFlag.PeakDetection 7 2 3 4 9 25 _ rfl).2.1 rfl (sampleCurve 3) rfl

/-- C7, as stated, fails: a loader constructed with smoothing window 0 and the
PeakDetection flag, run on a slice whose m/z and retention-time windows are both
inverted, queries the sample with the inverted window, returns the chromatogram it got
and runs peak picking with window 0. -/
theorem configuration_errors_not_rejected :
    (EicLoader.new invertedSlice PeakDetectionFlag.PeakDetection 0 0 3 4 5 40).eic_smoothingWindow
      ≤ 0 ∧
    invertedSlice.mzmin > invertedSlice.mzmax ∧ invertedSlice.rtmin > invertedSlice.rtmax ∧
    ((EicLoader.new invertedSlice PeakDetectionFlag.PeakDetection 0 0 3 4 5 40).run
        midPicker fullSample).eic ≠ none ∧
    ((EicLoader.new invertedSlice PeakDetectionFlag.PeakDetection 0 0 3 4 5 40).run
        midPicker fullSample).calls =
      [Call.getEIC_range 101 100 4 2 1, Call.setBaselineSmoothingWindow 5,
        Call.setBaselineDropTopX 40, Call.setSmootherType 0, Call.getPeakPositions 0] := by
  decide

/-- C7, amended: `EicLoader::operator()` makes no check of its configuration.  For every
loader, whatever the sign of its smoothing window, and every slice, whether or not its
windows are inverted, it queries the sample exactly once; a slice without SRM identifier
and without compound is queried with its `mzmin`, `mzmax`, `rtmin`, `rtmax` as given; the
result is `NULL` exactly when that lookup gave `NULL`; and when the PeakDetection flag is
set and the lookup gave a chromatogram, peak picking runs with the smoothing window as
given. -/
theorem no_configuration_check (pick : PeakPicker) (L : EicLoader) (sample : mzSample) :
    (L.run pick sample).calls.filter Call.isLookup = [(L.fetch sample).2] ∧
    (L.slice.srmId = "" → L.slice.compound = none →
      (L.fetch sample).2 =
        Call.getEIC_range L.slice.mzmin L.slice.mzmax L.slice.rtmin L.slice.rtmax 1) ∧
    ((L.run pick sample).eic = none ↔ (L.fetch sample).1 = none) ∧
    (L.pdetect = PeakDetectionFlag.PeakDetection → (L.fetch sample).1 ≠ none →
      Call.getPeakPositions L.eic_smoothingWindow ∈ (L.run pick sample).calls) := by
  refine ⟨run_lookups pick L sample, ?_, ?_, ?_⟩
  · intro hs hc
    rw [fetch_range L sample hs (by simp [hc])]
  · constructor
    · intro h
      cases he : (L.fetch sample).1 with
      | none => rfl
      | some e =>
        rw [run_eic_some pick L sample e he] at h
        cases h
    · exact run_eic_none pick L sample
  · intro hp he
    rw [run_calls_eq]
    cases hf : (L.fetch sample).1 with
    | none => exact absurd hf he
    | some e => simp [hp]

/-- Witness of the amended C7 on the loader with smoothing window 0 and the slice with
inverted windows. -/
theorem no_configuration_check_witness :
    (EicLoader.new invertedSlice PeakDetectionFlag.PeakDetection 0 0 3 4 5 40).fetch
        fullSample =
      (some (sampleCurve 3), Call.getEIC_range 101 100 4 2 1) ∧
    Call.getPeakPositions 0 ∈
      ((EicLoader.new invertedSlice PeakDetectionFlag.PeakDetection 0 0 3 4 5 40).run
        midPicker fullSample).calls :=
  ⟨by decide,
    (no_configuration_check midPicker
      (EicLoader.new invertedSlice PeakDetectionFlag.PeakDetection 0 0 3 4 5 40)
      fullSample).2.2.2 rfl (by decide)⟩

end PeakDetector

/-! ## Theorems about the model of `PeakDetector::addPeakGroup` -/

namespace PeakDetector

/-- The walk over the accepted groups finds nothing exactly when the candidate duplicates
none of them. -/
theorem absorbDuplicate_eq_none (mp : MavenParameters) (grp1 : PeakGroup)
    (groups : List PeakGroup) :
    absorbDuplicate mp grp1 groups = none ↔
      ∀ grp2 ∈ groups, isDuplicate mp grp1 grp2 = false := by
  induction groups with
  | nil => simp [absorbDuplicate]
  | cons g rest ih =>
    unfold absorbDuplicate
    by_cases hd : isDuplicate mp grp1 g = true
    · by_cases hq : g.quality < grp1.quality <;> simp [hd, hq]
    · have hd2 : isDuplicate mp grp1 g = false := by simpa using hd
      simp [hd2, ih]

/-- Merging or discarding a duplicate keeps the number of accepted groups. -/
theorem absorbDuplicate_length (mp : MavenParameters) (grp1 : PeakGroup)
    (groups r : List PeakGroup) (h : absorbDuplicate mp grp1 groups = some r) :
    r.length = groups.length := by
  induction groups generalizing r with
  | nil => simp [absorbDuplicate] at h
  | cons g rest ih =>
    unfold absorbDuplicate at h
    by_cases hd : isDuplicate mp grp1 g = true
    · by_cases hq : g.quality < grp1.quality
      · simp [hd, hq] at h
        subst h
        rfl
      · simp [hd, hq] at h
        subst h
        rfl
    · have hd2 : isDuplicate mp grp1 g = false := by simpa using hd
      simp only [hd2, Bool.false_eq_true, if_false, Option.map_eq_some'] at h
      obtain ⟨r1, hr1, rfl⟩ := h
      simp [ih r1 hr1]

/-- C8 (against the model of `addPeakGroup` built from spec 4.4 and the declaration's
documentation): the result is true exactly when the candidate is added to the accepted
group set.  For every candidate that duplicates some accepted group (overlap over the
common samples at or above the threshold) the number of accepted groups is unchanged and
the result is false; for every other candidate the accepted set becomes the old one
followed by the candidate, and the result is true. -/
theorem addPeakGroup_true_iff_added (mp : MavenParameters) (grp1 : PeakGroup) :
    ((∃ grp2 ∈ mp.allgroups, isDuplicate mp grp1 grp2 = true) →
      (addPeakGroup mp grp1).1 = false ∧
        (addPeakGroup mp grp1).2.allgroups.length = mp.allgroups.length) ∧
    ((∀ grp2 ∈ mp.allgroups, isDuplicate mp grp1 grp2 = false) →
      (addPeakGroup mp grp1).1 = true ∧
        (addPeakGroup mp grp1).2.allgroups = mp.allgroups ++ [grp1]) ∧
    ((addPeakGroup mp grp1).1 = true ↔
      (addPeakGroup mp grp1).2.allgroups = mp.allgroups ++ [grp1]) := by
  cases h : absorbDuplicate mp grp1 mp.allgroups with
  | none =>
    have hall := (absorbDuplicate_eq_none mp grp1 mp.allgroups).mp h
    refine ⟨?_, ?_, ?_⟩
    · rintro ⟨g, hg, hd⟩
      rw [hall g hg] at hd
      cases hd
    · intro _
      simp [addPeakGroup, h]
    · simp [addPeakGroup, h]
  | some r =>
    have hlen := absorbDuplicate_length mp grp1 mp.allgroups r h
    have hne : r ≠ mp.allgroups ++ [grp1] := by
      intro heq
      rw [heq] at hlen
      simp at hlen
    refine ⟨?_, ?_, ?_⟩
    · intro _
      simp [addPeakGroup, h, hlen]
    · intro hall
      rw [(absorbDuplicate_eq_none mp grp1 mp.allgroups).mpr hall] at h
      cases h
    · simp [addPeakGroup, h, hne]

/-- Witness of C8: a candidate overlapping the accepted group is not added, a distant one
is. -/
theorem addPeakGroup_true_iff_added_witness :
    ((addPeakGroup oneAccepted overlappingCandidate).1 = false ∧
      (addPeakGroup oneAccepted overlappingCandidate).2.allgroups.length = 1) ∧
    ((addPeakGroup oneAccepted distantCandidate).1 = true ∧
      (addPeakGroup oneAccepted distantCandidate).2.allgroups =
        oneAccepted.allgroups ++ [distantCandidate]) :=
  ⟨(addPeakGroup_true_iff_added oneAccepted overlappingCandidate).1
      ⟨_, List.mem_singleton.mpr rfl, by decide⟩,
    (addPeakGroup_true_iff_added oneAccepted distantCandidate).2.1 (by decide)⟩

end PeakDetector

/-! ## Theorems about `ProjectDockWidget::loadProject` -/

namespace ProjectDock

/-- Reading through a pointer after a write through a pointer. -/
theorem updateAt_getElem? (heap : List mzSample) (p q : Nat) (f : mzSample → mzSample) :
    (updateAt heap p f)[q]? = if p = q then (heap[q]?).map f else heap[q]? := by
  unfold updateAt
  by_cases hpq : p = q
  · subst hpq
    cases h : heap[p]? with
    | none => simp [h]
    | some s =>
      have hlt : p < heap.length := by
        rcases List.getElem?_eq_some.mp h with ⟨hlt, _⟩
        exact hlt
      simp [List.getElem?_set_self hlt]
  · cases h : heap[p]? with
    | none => simp [hpq]
    | some s => simp [hpq, List.getElem?_set_ne hpq]

/-- The test of line 479 succeeds exactly for a listed file name. -/
theorem checkLoaded_iff (S : Session) (fname : String) :
    checkLoaded S fname = true ↔ Listed S.heap S.samples fname := by
  unfold checkLoaded Listed
  rw [List.any_eq_true]
  constructor
  · rintro ⟨p, hp, h⟩
    cases hs : S.heap[p]? with
    | none => simp [hs] at h
    | some s =>
      simp [hs] at h
      exact ⟨p, hp, s, hs, h⟩
  · rintro ⟨p, hp, s, hs, hf⟩
    exact ⟨p, hp, by simp [hs, hf]⟩

theorem nameKept_refl (heap : List mzSample) : NameKept heap heap :=
  fun _ s h => ⟨s, h, rfl⟩

theorem nameKept_trans {h1 h2 h3 : List mzSample} (a : NameKept h1 h2) (b : NameKept h2 h3) :
    NameKept h1 h3 := by
  intro p s hs
  obtain ⟨s2, hs2, hn2⟩ := a p s hs
  obtain ⟨s3, hs3, hn3⟩ := b p s2 hs2
  exact ⟨s3, hs3, hn3.trans hn2⟩

/-- Allocating a new object keeps the old ones. -/
theorem nameKept_append (heap : List mzSample) (s : mzSample) : NameKept heap (heap ++ [s]) := by
  intro p x hx
  have hlt : p < heap.length := by
    rcases List.getElem?_eq_some.mp hx with ⟨hlt, _⟩
    exact hlt
  exact ⟨x, by rw [List.getElem?_append_left hlt]; exact hx, rfl⟩

/-- A write that leaves `fileName` alone keeps every object under its name. -/
theorem nameKept_updateAt (heap : List mzSample) (p : Nat) (f : mzSample → mzSample)
    (hf : ∀ x, (f x).fileName = x.fileName) : NameKept heap (updateAt heap p f) := by
  intro q s hs
  rw [updateAt_getElem?]
  by_cases hpq : p = q
  · simp [hpq, hs, hf]
  · simp [hpq, hs]

/-- The same for a write that is made only under a condition. -/
theorem nameKept_ite (c : Prop) [Decidable c] (heap : List mzSample) (p : Nat)
    (f : mzSample → mzSample) (hf : ∀ x, (f x).fileName = x.fileName) :
    NameKept heap (if c then updateAt heap p f else heap) := by
  by_cases hc : c
  · simp only [hc, if_true]
    exact nameKept_updateAt heap p f hf
  · simp only [hc, if_false]
    exact nameKept_refl heap

/-- A listed file name stays listed when the heap keeps names and the list keeps its
entries. -/
theorem listed_mono {heap heap1 : List mzSample} {samples samples1 : List Nat} {f : String}
    (hk : NameKept heap heap1) (hsub : ∀ x ∈ samples, x ∈ samples1)
    (h : Listed heap samples f) : Listed heap1 samples1 f := by
  obtain ⟨p, hp, s, hs, hf⟩ := h
  obtain ⟨s1, hs1, hn⟩ := hk p s hs
  exact ⟨p, hsub p hp, s1, hs1, hn.trans hf⟩

theorem settled_mono {env : Env} {heap heap1 : List mzSample} {samples samples1 : List Nat}
    {f : String} (hk : NameKept heap heap1) (hsub : ∀ x ∈ samples, x ∈ samples1)
    (h : Settled env heap samples f) : Settled env heap1 samples1 f := by
  rcases h with h | h
  · exact Or.inl (listed_mono hk hsub h)
  · exact Or.inr h

/-- While the file the `QFileInfo` was built from does not exist, the loop of lines 488 to
492 never breaks: it ends with the last candidate directory. -/
theorem relocate_missing (env : Env) (sampleFile : String)
    (h : env.fileExists sampleFile = false) (paths : List String) (last fname : String) :
    relocate env sampleFile (paths ++ [last]) fname =
      last ++ env.separator ++ env.baseName sampleFile := by
  induction paths generalizing fname with
  | nil => simp [relocate, h]
  | cons a rest ih =>
    rw [List.cons_append]
    unfold relocate
    simp only [h, Bool.false_eq_true, if_false]
    exact ih _

/-- A recorded file that exists is handed to the loader under its recorded path. -/
theorem resolve_existing (env : Env) (paths : List String) (fname : String)
    (h : env.fileExists fname = true) : resolve env paths fname = fname := by
  simp [resolve, h]

/-- A recorded file that does not exist is looked for in the last candidate directory
only. -/
theorem resolve_missing (env : Env) (a b c : String) (fname : String)
    (h : env.fileExists fname = false) :
    resolve env [a, b, c] fname = c ++ env.separator ++ env.baseName fname := by
  have hr := relocate_missing env fname h [a, b] c fname
  simp only [List.cons_append, List.nil_append] at hr
  simp [resolve, h, hr]

/-- What `loadOne` does when the loader delivers a sample: the object is allocated at the
next free address and keeps its file name, the pointer is passed to
`MainWindow::addSample`, and `currentSample` points to the object. -/
theorem loadOne_some (env : Env) (st : LoopState)
    (fname sname setname sampleOrder isSelected : String) (s : mzSample)
    (hf : fname ≠ "") (hl : env.loadSample fname = some s) :
    NameKept (st.session.heap ++ [s])
      (loadOne env st fname sname setname sampleOrder isSelected).session.heap ∧
    (loadOne env st fname sname setname sampleOrder isSelected).session.samples =
      env.addSample (st.session.heap ++ [s]) st.session.samples st.session.heap.length ∧
    (loadOne env st fname sname setname sampleOrder isSelected).currentSample =
      some st.session.heap.length ∧
    (loadOne env st fname sname setname sampleOrder isSelected).session.loaded =
      st.session.loaded ++ [fname] := by
  unfold loadOne
  rw [if_pos hf]
  simp only [hl]
  refine ⟨?_, by simp⟩
  refine nameKept_trans ?_ (nameKept_ite _ _ _ _ (fun _ => rfl))
  refine nameKept_trans ?_ (nameKept_ite _ _ _ _ (fun _ => rfl))
  refine nameKept_trans ?_ (nameKept_ite _ _ _ _ (fun _ => rfl))
  exact nameKept_ite _ _ _ _ (fun _ => rfl)

/-- What `loadOne` does when the loader delivers no sample for a non-empty path: only the
attempt is recorded, and `currentSample` becomes `NULL`. -/
theorem loadOne_none (env : Env) (st : LoopState)
    (fname sname setname sampleOrder isSelected : String)
    (hf : fname ≠ "") (hl : env.loadSample fname = none) :
    loadOne env st fname sname setname sampleOrder isSelected =
      { st with session := { st.session with loaded := st.session.loaded ++ [fname] },
                currentSample := none } := by
  unfold loadOne
  simp only [hf, ne_eq, not_false_eq_true, if_true, hl]

/-- With an empty path `loadOne` does nothing. -/
theorem loadOne_empty (env : Env) (st : LoopState)
    (sname setname sampleOrder isSelected : String) :
    loadOne env st "" sname setname sampleOrder isSelected = st := by
  simp [loadOne]

/-- When `MainWindow::addSample` appends, `loadOne` keeps every object under its name and
keeps every entry of the sample list. -/
theorem loadOne_grows (env : Env) (hadd : ∀ h l p, env.addSample h l p = l ++ [p])
    (st : LoopState) (fname sname setname sampleOrder isSelected : String) :
    NameKept st.session.heap
      (loadOne env st fname sname setname sampleOrder isSelected).session.heap ∧
    ∀ x ∈ st.session.samples,
      x ∈ (loadOne env st fname sname setname sampleOrder isSelected).session.samples := by
  by_cases hf : fname = ""
  · subst hf
    rw [loadOne_empty]
    exact ⟨nameKept_refl _, fun _ hx => hx⟩
  · cases hl : env.loadSample fname with
    | none =>
      rw [loadOne_none env st fname sname setname sampleOrder isSelected hf hl]
      exact ⟨nameKept_refl _, fun _ hx => hx⟩
    | some s =>
      obtain ⟨hk, hs, _, _⟩ :=
        loadOne_some env st fname sname setname sampleOrder isSelected s hf hl
      refine ⟨nameKept_trans (nameKept_append _ s) hk, ?_⟩
      intro x hx
      rw [hs, hadd]
      exact List.mem_append_left _ hx

/-- When the loader names a sample by the path it was given and `MainWindow::addSample`
appends, a path is settled once `loadOne` has run on it. -/
theorem loadOne_settles (env : Env) (hname : ∀ p s, env.loadSample p = some s → s.fileName = p)
    (hadd : ∀ h l p, env.addSample h l p = l ++ [p])
    (st : LoopState) (fname sname setname sampleOrder isSelected : String) :
    Settled env (loadOne env st fname sname setname sampleOrder isSelected).session.heap
      (loadOne env st fname sname setname sampleOrder isSelected).session.samples fname := by
  by_cases hf : fname = ""
  · exact Or.inr (Or.inr hf)
  · cases hl : env.loadSample fname with
    | none => exact Or.inr (Or.inl hl)
    | some s =>
      obtain ⟨hk, hs, _, _⟩ :=
        loadOne_some env st fname sname setname sampleOrder isSelected s hf hl
      obtain ⟨s1, hs1, hn⟩ := hk st.session.heap.length s (List.getElem?_concat_length _ _)
      refine Or.inl ⟨st.session.heap.length, ?_, s1, hs1, hn.trans (hname fname s hl)⟩
      rw [hs, hadd]
      simp

/-- One iteration keeps every object under its name and keeps every entry of the sample
list, when `MainWindow::addSample` appends. -/
theorem step_grows (env : Env) (hadd : ∀ h l p, env.addSample h l p = l ++ [p])
    (paths : List String) (st : LoopState) (tok : XmlToken) :
    NameKept st.session.heap (step env paths st tok).session.heap ∧
    ∀ x ∈ st.session.samples, x ∈ (step env paths st tok).session.samples := by
  cases tok with
  | startElement name attributes =>
    unfold step
    by_cases hn : name = "sample"
    · simp only [hn, if_true]
      split
      · exact ⟨nameKept_refl _, fun _ hx => hx⟩
      · exact loadOne_grows env hadd
          { st with currentXmlElement := "sample",
                    currentSampleCount := st.currentSampleCount + 1 } _ _ _ _ _
    · simp only [hn, if_false]
      by_cases hc : name = "color"
      · simp only [hc, if_true]
        cases hcur : st.currentSample with
        | none => exact ⟨nameKept_refl _, fun _ hx => hx⟩
        | some cur =>
          refine ⟨?_, fun _ hx => hx⟩
          refine nameKept_trans ?_ (nameKept_updateAt _ _ _ (fun _ => rfl))
          refine nameKept_trans ?_ (nameKept_updateAt _ _ _ (fun _ => rfl))
          refine nameKept_trans ?_ (nameKept_updateAt _ _ _ (fun _ => rfl))
          exact nameKept_updateAt _ _ _ (fun _ => rfl)
      · simp only [hc, if_false]
        exact ⟨nameKept_refl _, fun _ hx => hx⟩
  | characters text =>
    simp only [step]
    split <;> exact ⟨nameKept_refl _, fun _ hx => hx⟩
  | other =>
    simp only [step]
    exact ⟨nameKept_refl _, fun _ hx => hx⟩

/-- One iteration on a `sample` element, spelled out. -/
theorem step_sample (env : Env) (paths : List String) (st : LoopState)
    (attributes : List (String × String)) :
    step env paths st (XmlToken.startElement "sample" attributes) =
      if checkLoaded st.session (attributeValue attributes "filename") = true then
        { st with currentXmlElement := "sample",
                  currentSampleCount := st.currentSampleCount + 1 }
      else
        loadOne env
          { st with currentXmlElement := "sample",
                    currentSampleCount := st.currentSampleCount + 1 }
          (resolve env paths (attributeValue attributes "filename"))
          (attributeValue attributes "name") (attributeValue attributes "setName")
          (attributeValue attributes "sampleOrder") (attributeValue attributes "isSelected") := by
  simp only [step, if_true]

/-- After the iteration on a `sample` element whose recorded file exists, its file name is
settled. -/
theorem step_settles (env : Env) (hname : ∀ p s, env.loadSample p = some s → s.fileName = p)
    (hadd : ∀ h l p, env.addSample h l p = l ++ [p])
    (paths : List String) (st : LoopState) (attributes : List (String × String))
    (hex : env.fileExists (attributeValue attributes "filename") = true) :
    Settled env (step env paths st (XmlToken.startElement "sample" attributes)).session.heap
      (step env paths st (XmlToken.startElement "sample" attributes)).session.samples
      (attributeValue attributes "filename") := by
  rw [step_sample]
  split
  · next h => exact Or.inl ((checkLoaded_iff _ _).mp h)
  · rw [resolve_existing env paths _ hex]
    exact loadOne_settles env hname hadd _ _ _ _ _ _

/-- An iteration that starts with `currentSample == NULL`, on a token that is not a
`sample` element or is one whose recorded file exists and whose file name is settled,
changes neither the objects nor the sample list, and leaves `currentSample` `NULL`. -/
theorem step_fixed (env : Env) (paths : List String) (st : LoopState) (tok : XmlToken)
    (hcur : st.currentSample = none)
    (hset : ∀ attributes, tok = XmlToken.startElement "sample" attributes →
      env.fileExists (attributeValue attributes "filename") = true ∧
        Settled env st.session.heap st.session.samples (attributeValue attributes "filename")) :
    (step env paths st tok).session.heap = st.session.heap ∧
    (step env paths st tok).session.samples = st.session.samples ∧
    (step env paths st tok).currentSample = none := by
  cases tok with
  | startElement name attributes =>
    by_cases hn : name = "sample"
    · subst hn
      obtain ⟨hex, hs⟩ := hset attributes rfl
      rw [step_sample]
      split
      · exact ⟨rfl, rfl, hcur⟩
      · next hcl =>
        rw [resolve_existing env paths _ hex]
        have hnl : ¬ Listed st.session.heap st.session.samples
            (attributeValue attributes "filename") :=
          fun h => hcl ((checkLoaded_iff _ _).mpr h)
        by_cases hf : attributeValue attributes "filename" = ""
        · rw [hf, loadOne_empty]
          exact ⟨rfl, rfl, hcur⟩
        · have hl : env.loadSample (attributeValue attributes "filename") = none := by
            rcases hs with h | h | h
            · exact absurd h hnl
            · exact h
            · exact absurd h hf
          rw [loadOne_none env _ _ _ _ _ _ hf hl]
          exact ⟨rfl, rfl, rfl⟩
    · by_cases hc : name = "color"
      · simp [step, hn, hc, hcur]
      · simp [step, hn, hc, hcur]
  | characters text =>
    simp only [step]
    split <;> exact ⟨rfl, rfl, hcur⟩
  | other => exact ⟨rfl, rfl, hcur⟩

/-- After the loop every `sample` element of the token list is settled, every object is
still there under its name and the sample list has kept its entries. -/
theorem foldl_settles (env : Env) (hname : ∀ p s, env.loadSample p = some s → s.fileName = p)
    (hadd : ∀ h l p, env.addSample h l p = l ++ [p]) (paths : List String)
    (tokens : List XmlToken) (st : LoopState)
    (hex : ∀ attributes, XmlToken.startElement "sample" attributes ∈ tokens →
      env.fileExists (attributeValue attributes "filename") = true) :
    (∀ attributes, XmlToken.startElement "sample" attributes ∈ tokens →
      Settled env (tokens.foldl (step env paths) st).session.heap
        (tokens.foldl (step env paths) st).session.samples
        (attributeValue attributes "filename")) ∧
    NameKept st.session.heap (tokens.foldl (step env paths) st).session.heap ∧
    ∀ x ∈ st.session.samples, x ∈ (tokens.foldl (step env paths) st).session.samples := by
  induction tokens generalizing st with
  | nil =>
    refine ⟨?_, nameKept_refl _, fun _ hx => hx⟩
    intro attributes h
    cases h
  | cons tok rest ih =>
    rw [List.foldl_cons]
    obtain ⟨h1, h2, h3⟩ := ih (step env paths st tok)
      (fun attributes h => hex attributes (List.mem_cons_of_mem _ h))
    obtain ⟨g2, g3⟩ := step_grows env hadd paths st tok
    refine ⟨?_, nameKept_trans g2 h2, fun x hx => h3 x (g3 x hx)⟩
    intro attributes h
    rcases List.mem_cons.mp h with h | h
    · subst h
      exact settled_mono h2 h3
        (step_settles env hname hadd paths st attributes (hex attributes (List.mem_cons_self _ _)))
    · exact h1 attributes h

/-- A loop that starts with `currentSample == NULL` over tokens whose `sample` elements
all have an existing recorded file and a settled file name changes neither the objects
nor the sample list. -/
theorem foldl_fixed (env : Env) (paths : List String) (tokens : List XmlToken) (st : LoopState)
    (hcur : st.currentSample = none)
    (hset : ∀ attributes, XmlToken.startElement "sample" attributes ∈ tokens →
      env.fileExists (attributeValue attributes "filename") = true ∧
        Settled env st.session.heap st.session.samples (attributeValue attributes "filename")) :
    (tokens.foldl (step env paths) st).session.heap = st.session.heap ∧
    (tokens.foldl (step env paths) st).session.samples = st.session.samples := by
  induction tokens generalizing st with
  | nil => exact ⟨rfl, rfl⟩
  | cons tok rest ih =>
    rw [List.foldl_cons]
    obtain ⟨e1, e2, e3⟩ := step_fixed env paths st tok hcur
      (fun attributes h => hset attributes (h ▸ List.mem_cons_self _ _))
    obtain ⟨r1, r2⟩ := ih (step env paths st tok) e3 (by
      intro attributes h
      rw [e1, e2]
      exact hset attributes (List.mem_cons_of_mem _ h))
    exact ⟨r1.trans e1, r2.trans e2⟩

/-- The session `loadProject` leaves when the project file can be read. -/
theorem loadProject_of_readXml (env : Env) (S : Session) (fileName : String)
    (tokens : List XmlToken) (hxml : env.readXml fileName = some tokens) :
    loadProject env S fileName =
      { (runLoop env S fileName tokens).session with
        projectDescription := (runLoop env S fileName tokens).projectDescription
        lastOpennedProject := fileName } := by
  unfold loadProject
  rw [hxml]

/-- C9 fails on the code at this input: a project whose one sample is recorded at
`/data/old/a.mzXML`, a file that no longer exists, while `a.mzXML` is in the last used
directory `/last`.  The first load lists the sample under `/last/a.mzXML`.  The second load
of the same project compares the recorded name `/data/old/a.mzXML` with the listed file
names (line 479), does not skip the element, loads `/last/a.mzXML` again and lists it a
second time, although line 482 is there to "skip files that have been loaded already".
When the recorded file exists, the second load of the project skips the element and the
list keeps its one entry. -/
theorem second_load_duplicates_relocated_sample :
    (envWith ["/last/a.mzXML"]).fileExists "/data/old/a.mzXML" = false ∧
    (loadProject (envWith ["/last/a.mzXML"]) (emptySession "/last") "/proj/p.mzroll").samples
      = [0] ∧
    (loadProject (envWith ["/last/a.mzXML"])
      (loadProject (envWith ["/last/a.mzXML"]) (emptySession "/last") "/proj/p.mzroll")
      "/proj/p.mzroll").samples = [0, 1] ∧
    (loadProject (envWith ["/last/a.mzXML"])
      (loadProject (envWith ["/last/a.mzXML"]) (emptySession "/last") "/proj/p.mzroll")
      "/proj/p.mzroll").heap.map (fun s => s.fileName) = ["/last/a.mzXML", "/last/a.mzXML"] ∧
    (loadProject (envWith ["/last/a.mzXML"])
      (loadProject (envWith ["/last/a.mzXML"]) (emptySession "/last") "/proj/p.mzroll")
      "/proj/p.mzroll").loaded = ["/last/a.mzXML", "/last/a.mzXML"] ∧
    (loadProject (envWith ["/data/old/a.mzXML"])
      (loadProject (envWith ["/data/old/a.mzXML"]) (emptySession "/last") "/proj/p.mzroll")
      "/proj/p.mzroll").samples = [0] := by
  decide

/-- Two facts about the test of lines 477 to 482.  The iteration on the start tag of a
`sample` element whose `filename` attribute equals the `fileName` of a listed sample
leaves the session, with its record of loaded paths, and `currentSample` as they were;
nothing is said here about the `color` element that follows.  And a second load of a
project leaves the sample list and the objects as they are when every recorded sample
file of the project exists, the loader names a sample by the path it was given, and
`MainWindow::addSample` appends. -/
theorem already_loaded_sample_is_skipped (env : Env) :
    (∀ (paths : List String) (st : LoopState) (attributes : List (String × String)),
      (∃ p ∈ st.session.samples, ∃ loadedFile : mzSample,
        st.session.heap[p]? = some loadedFile ∧
          loadedFile.fileName = attributeValue attributes "filename") →
      (step env paths st (XmlToken.startElement "sample" attributes)).session = st.session ∧
      (step env paths st (XmlToken.startElement "sample" attributes)).currentSample
        = st.currentSample) ∧
    (∀ (S : Session) (fileName : String) (tokens : List XmlToken),
      env.readXml fileName = some tokens →
      (∀ p s, env.loadSample p = some s → s.fileName = p) →
      (∀ h l p, env.addSample h l p = l ++ [p]) →
      (∀ attributes, XmlToken.startElement "sample" attributes ∈ tokens →
        env.fileExists (attributeValue attributes "filename") = true) →
      (loadProject env (loadProject env S fileName) fileName).samples
        = (loadProject env S fileName).samples ∧
      (loadProject env (loadProject env S fileName) fileName).heap
        = (loadProject env S fileName).heap) := by
  constructor
  · intro paths st attributes h
    have hcl : checkLoaded st.session (attributeValue attributes "filename") = true :=
      (checkLoaded_iff _ _).mpr h
    rw [step_sample, if_pos hcl]
    exact ⟨rfl, rfl⟩
  · intro S fileName tokens hxml hname hadd hex
    obtain ⟨h1, _, _⟩ := foldl_settles env hname hadd (pathlist env S fileName) tokens
      (initLoop S) hex
    have hfix := foldl_fixed env
      (pathlist env (loadProject env S fileName) fileName) tokens
      (initLoop (loadProject env S fileName)) rfl (by
        intro attributes h
        refine ⟨hex attributes h, ?_⟩
        have := h1 attributes h
        rw [loadProject_of_readXml env S fileName tokens hxml]
        exact this)
    rw [loadProject_of_readXml env (loadProject env S fileName) fileName tokens hxml]
    exact ⟨hfix.2, hfix.1⟩

/-- The two facts of `already_loaded_sample_is_skipped` at concrete inputs: the iteration
on the start tag of a `sample` element whose file is listed, and the second load of the
project whose recorded file exists. -/
theorem already_loaded_sample_is_skipped_witness :
    ((step (envWith ["/data/old/a.mzXML"]) ["/proj", ".", "/last"] (initLoop listedSession)
        (XmlToken.startElement "sample" [("name", "a"), ("filename", "/data/old/a.mzXML")])).session
        = listedSession ∧
      (step (envWith ["/data/old/a.mzXML"]) ["/proj", ".", "/last"] (initLoop listedSession)
        (XmlToken.startElement "sample"
          [("name", "a"), ("filename", "/data/old/a.mzXML")])).currentSample = none) ∧
    ((loadProject (envWith ["/data/old/a.mzXML"])
      (loadProject (envWith ["/data/old/a.mzXML"]) (emptySession "/last") "/proj/p.mzroll")
      "/proj/p.mzroll").samples
      = (loadProject (envWith ["/data/old/a.mzXML"]) (emptySession "/last")
          "/proj/p.mzroll").samples ∧
    (loadProject (envWith ["/data/old/a.mzXML"])
      (loadProject (envWith ["/data/old/a.mzXML"]) (emptySession "/last") "/proj/p.mzroll")
      "/proj/p.mzroll").heap
      = (loadProject (envWith ["/data/old/a.mzXML"]) (emptySession "/last")
          "/proj/p.mzroll").heap) :=
  ⟨(already_loaded_sample_is_skipped (envWith ["/data/old/a.mzXML"])).1
      ["/proj", ".", "/last"] (initLoop listedSession)
      [("name", "a"), ("filename", "/data/old/a.mzXML")]
      ⟨0, by decide, freshSample "/data/old/a.mzXML", rfl, by decide⟩,
    (already_loaded_sample_is_skipped (envWith ["/data/old/a.mzXML"])).2
      (emptySession "/last") "/proj/p.mzroll" oneSampleProject rfl
      (by
        intro p s h
        simp only [envWith] at h
        split at h
        · cases h
          rfl
        · cases h)
      (fun _ _ _ => rfl)
      (by
        intro attributes h
        simp only [oneSampleProject, List.mem_cons, XmlToken.startElement.injEq,
          List.mem_singleton] at h
        simp at h
        obtain ⟨_, rfl⟩ := h
        decide)⟩

/-- C10 fails on the code at this input: the project `/proj/p.mzroll` records its sample at
`/data/old/a.mzXML`, which does not exist, while `a.mzXML` lies in the project directory
`/proj`; the candidate directories are `/proj`, `.`, `/last`.  `loadProject` hands
`/last/a.mzXML`, the path in the last candidate directory, to the loader, and no sample
is added. -/
theorem relocated_sample_sought_in_last_directory :
    (envWith ["/proj/a.mzXML"]).fileExists "/data/old/a.mzXML" = false ∧
    (envWith ["/proj/a.mzXML"]).fileExists "/proj/a.mzXML" = true ∧
    pathlist (envWith ["/proj/a.mzXML"]) (emptySession "/last") "/proj/p.mzroll"
      = ["/proj", ".", "/last"] ∧
    resolve (envWith ["/proj/a.mzXML"]) ["/proj", ".", "/last"] "/data/old/a.mzXML"
      = "/last/a.mzXML" ∧
    (loadProject (envWith ["/proj/a.mzXML"]) (emptySession "/last") "/proj/p.mzroll").loaded
      = ["/last/a.mzXML"] ∧
    (loadProject (envWith ["/proj/a.mzXML"]) (emptySession "/last") "/proj/p.mzroll").samples
      = [] := by
  decide

end ProjectDock

/-! ## Theorems about `ProjectDockWidget::unloadSample` -/

namespace ProjectDock

/-- The loop of `unloadSample` erases the first occurrence of the sample. -/
theorem eraseSample_eq_erase (sample : Nat) (l : List Nat) :
    eraseSample sample l = l.erase sample := by
  induction l with
  | nil => rfl
  | cons x rest ih =>
    unfold eraseSample
    rw [List.erase_cons]
    by_cases hx : x = sample
    · simp [hx]
    · simp [hx, ih]

/-- C11: for every session and every current item whose sample pointer is non-null,
`unloadSample` leaves the main window's list equal to the old list with the first
occurrence of that pointer erased: when the sample was in the list, the entries before
its first occurrence and the entries after it follow one another in their old order and
the length is one less; when it was not, the list is unchanged.  The sample's object is
marked unselected and no other object changes.  With no current item, or with a current
item whose sample pointer is null, the session is unchanged. -/
theorem unloadSample_erases_first_occurrence (S : Session) (sample : Nat) :
    (unloadSample S (some (some sample))).samples = S.samples.erase sample ∧
    (sample ∈ S.samples →
      ∃ before after, S.samples = before ++ sample :: after ∧ sample ∉ before ∧
        (unloadSample S (some (some sample))).samples = before ++ after ∧
        (unloadSample S (some (some sample))).samples.length + 1 = S.samples.length) ∧
    (sample ∉ S.samples → (unloadSample S (some (some sample))).samples = S.samples) ∧
    (∀ x : mzSample, S.heap[sample]? = some x →
      (unloadSample S (some (some sample))).heap[sample]? =
        some { x with isSelected := false }) ∧
    (∀ q : Nat, q ≠ sample → (unloadSample S (some (some sample))).heap[q]? = S.heap[q]?) ∧
    unloadSample S none = S ∧ unloadSample S (some none) = S := by
  have hs : (unloadSample S (some (some sample))).samples = S.samples.erase sample :=
    eraseSample_eq_erase sample S.samples
  refine ⟨hs, ?_, ?_, ?_, ?_, rfl, rfl⟩
  · intro hmem
    obtain ⟨before, after, h1, h2, h3⟩ := List.exists_erase_eq hmem
    refine ⟨before, after, h2, h1, hs.trans h3, ?_⟩
    rw [hs, h3, h2]
    simp
    omega
  · intro hmem
    rw [hs]
    exact List.erase_of_not_mem hmem
  · intro x hx
    show (updateAt S.heap sample _)[sample]? = _
    rw [updateAt_getElem?]
    simp [hx]
  · intro q hq
    show (updateAt S.heap sample _)[q]? = _
    rw [updateAt_getElem?]
    simp [Ne.symm hq]

/-- Witness of C11: unloading the sample 1 from the list 0, 1, 2, 1 leaves 0, 2, 1, and
the object of the sample, selected before, is unselected. -/
theorem unloadSample_erases_first_occurrence_witness :
    (∃ before after, repeatedSession.samples = before ++ 1 :: after ∧ 1 ∉ before ∧
      (unloadSample repeatedSession (some (some 1))).samples = before ++ after ∧
      (unloadSample repeatedSession (some (some 1))).samples.length + 1 =
        repeatedSession.samples.length) ∧
    (unloadSample repeatedSession (some (some 1))).samples = [0, 2, 1] ∧
    (unloadSample repeatedSession (some (some 1))).heap[1]? =
      some { colouredSample "/data/b.mzXML" 1 0 0 1 with isSelected := false } ∧
    (unloadSample repeatedSession (some (some 5))).samples = repeatedSession.samples :=
  ⟨(unloadSample_erases_first_occurrence repeatedSession 1).2.1 (by decide),
    by decide,
    (unloadSample_erases_first_occurrence repeatedSession 1).2.2.2.1 _ rfl,
    (unloadSample_erases_first_occurrence repeatedSession 5).2.2.1 (by decide)⟩

end ProjectDock

/-! ## Theorems about the colours written by `saveProject` and read by `loadProject` -/

namespace ProjectDock

/-- One iteration on a `color` element while `currentSample` points to a sample: the four
components are written through the pointer, `color[0]` from `red`, `color[1]` from
`blue`, `color[2]` from `green`, `color[3]` from `alpha`. -/
theorem step_color (env : Env) (paths : List String) (st : LoopState)
    (attributes : List (String × String)) (cur : Nat) (hcur : st.currentSample = some cur) :
    (step env paths st (XmlToken.startElement "color" attributes)).currentSample = some cur ∧
    (step env paths st (XmlToken.startElement "color" attributes)).session.heap =
      updateAt (updateAt (updateAt (updateAt st.session.heap cur
        (fun x => { x with color0 := env.toDouble (attributeValue attributes "red") })) cur
        (fun x => { x with color1 := env.toDouble (attributeValue attributes "blue") })) cur
        (fun x => { x with color2 := env.toDouble (attributeValue attributes "green") })) cur
        (fun x => { x with color3 := env.toDouble (attributeValue attributes "alpha") }) ∧
    (step env paths st (XmlToken.startElement "color" attributes)).session.samples =
      st.session.samples := by
  simp [step, hcur]

/-- The colour components of the object `currentSample` points to after a `color`
element. -/
theorem step_color_reads (env : Env) (paths : List String) (st : LoopState)
    (attributes : List (String × String)) (cur : Nat) (y : mzSample)
    (hcur : st.currentSample = some cur) (hy : st.session.heap[cur]? = some y) :
    ∃ x : mzSample,
      (step env paths st (XmlToken.startElement "color" attributes)).session.heap[cur]? = some x ∧
      x.color0 = env.toDouble (attributeValue attributes "red") ∧
      x.color1 = env.toDouble (attributeValue attributes "blue") ∧
      x.color2 = env.toDouble (attributeValue attributes "green") ∧
      x.color3 = env.toDouble (attributeValue attributes "alpha") ∧
      x.fileName = y.fileName := by
  rw [(step_color env paths st attributes cur hcur).2.1]
  simp only [updateAt_getElem?, if_true, hy, Option.map_some']
  exact ⟨_, rfl, rfl, rfl, rfl, rfl, rfl⟩

/-- The colours survive being written by `saveProject` and read back by `loadProject` for a
sample that is loaded when its element is read: if the sample's file name is not listed,
the loader delivers a sample for the path the file name resolves to, and `toDouble`
reads each of the four printed components back, then after the tokens written for the
sample `currentSample` points to the new object and that object has the four saved
components, each in its own place. -/
theorem colours_restored_when_loaded (env : Env) (pr : Printer) (paths : List String)
    (st : LoopState) (s delivered : mzSample)
    (hnew : checkLoaded st.session s.fileName = false)
    (hpath : resolve env paths s.fileName ≠ "")
    (hload : env.loadSample (resolve env paths s.fileName) = some delivered)
    (h0 : env.toDouble (pr.numberF2 s.color0) = s.color0)
    (h1 : env.toDouble (pr.numberF2 s.color1) = s.color1)
    (h2 : env.toDouble (pr.numberF2 s.color2) = s.color2)
    (h3 : env.toDouble (pr.numberF2 s.color3) = s.color3) :
    ∃ x : mzSample,
      ((writeSample pr s).foldl (step env paths) st).session.heap[st.session.heap.length]?
        = some x ∧
      ((writeSample pr s).foldl (step env paths) st).currentSample
        = some st.session.heap.length ∧
      x.color0 = s.color0 ∧ x.color1 = s.color1 ∧ x.color2 = s.color2 ∧
      x.color3 = s.color3 := by
  simp only [writeSample, List.foldl_cons, List.foldl_nil]
  rw [step_sample]
  have hfn : attributeValue
      [("name", s.sampleName), ("filename", s.fileName),
        ("sampleOrder", pr.number s.sampleOrder), ("setName", s.setName),
        ("isSelected", pr.number (if s.isSelected = true then 1 else 0))] "filename"
      = s.fileName := by
    simp [attributeValue, List.find?]
  rw [hfn]
  simp only [hnew, Bool.false_eq_true, if_false]
  obtain ⟨hk, _, hc, _⟩ := loadOne_some env
    { st with currentXmlElement := "sample", currentSampleCount := st.currentSampleCount + 1 }
    (resolve env paths s.fileName) _ _ _ _ delivered hpath hload
  obtain ⟨y, hy, _⟩ := hk st.session.heap.length delivered (List.getElem?_concat_length _ _)
  obtain ⟨x, hx, c0, c1, c2, c3, _⟩ := step_color_reads env paths _
    [("red", pr.numberF2 s.color0), ("blue", pr.numberF2 s.color1),
      ("green", pr.numberF2 s.color2), ("alpha", pr.numberF2 s.color3)]
    st.session.heap.length y hc hy
  have a0 : attributeValue
      [("red", pr.numberF2 s.color0), ("blue", pr.numberF2 s.color1),
        ("green", pr.numberF2 s.color2), ("alpha", pr.numberF2 s.color3)] "red"
      = pr.numberF2 s.color0 := by simp [attributeValue, List.find?]
  have a1 : attributeValue
      [("red", pr.numberF2 s.color0), ("blue", pr.numberF2 s.color1),
        ("green", pr.numberF2 s.color2), ("alpha", pr.numberF2 s.color3)] "blue"
      = pr.numberF2 s.color1 := by simp [attributeValue, List.find?]
  have a2 : attributeValue
      [("red", pr.numberF2 s.color0), ("blue", pr.numberF2 s.color1),
        ("green", pr.numberF2 s.color2), ("alpha", pr.numberF2 s.color3)] "green"
      = pr.numberF2 s.color2 := by simp [attributeValue, List.find?]
  have a3 : attributeValue
      [("red", pr.numberF2 s.color0), ("blue", pr.numberF2 s.color1),
        ("green", pr.numberF2 s.color2), ("alpha", pr.numberF2 s.color3)] "alpha"
      = pr.numberF2 s.color3 := by simp [attributeValue, List.find?]
  rw [a0, h0] at c0
  rw [a1, h1] at c1
  rw [a2, h2] at c2
  rw [a3, h3] at c3
  refine ⟨x, hx, ?_, c0, c1, c2, c3⟩
  exact (step_color env paths _ _ st.session.heap.length hc).1

/-- C12 fails on the code at this input.  The saved session holds `b.mzXML` with colour
(1, 0, 0, 1) and `c.mzXML` with colour (0, 0, 1, 1), and `saveProject` writes both.  Read
back into a session without samples, both colours are restored.  Read back into a
session in which `c.mzXML` is loaded and `b.mzXML` is not, the `sample` element of
`c.mzXML` is skipped while `currentSample` still points to `b.mzXML`, and the colour of
`c.mzXML` is written there: `b.mzXML` ends with (0, 0, 1, 1), not with its saved colour. -/
theorem colour_of_skipped_sample_lands_on_previous :
    savedSession.heap = [colouredSample "/data/b.mzXML" 1 0 0 1,
      colouredSample "/data/c.mzXML" 0 0 1 1] ∧
    roundTripEnv.readXml "/proj/q.mzroll" =
      saveProject plainPrinter savedSession [] "/proj/q.mzroll" true ∧
    (loadProject roundTripEnv (emptySession "/last") "/proj/q.mzroll").heap =
      [colouredSample "/data/b.mzXML" 1 0 0 1, colouredSample "/data/c.mzXML" 0 0 1 1] ∧
    checkLoaded sessionWithC "/data/b.mzXML" = false ∧
    (loadProject roundTripEnv sessionWithC "/proj/q.mzroll").samples = [0, 1] ∧
    (loadProject roundTripEnv sessionWithC "/proj/q.mzroll").heap =
      [freshSample "/data/c.mzXML", colouredSample "/data/b.mzXML" 0 0 1 1] := by
  refine ⟨rfl, rfl, ?_, ?_, ?_, ?_⟩ <;> decide

end ProjectDock
